import Mathlib

/-! teleglogger: the container log pump manager

A shallow embedding of `main.go`.  Every function that talks to the outside
world (the Docker client, the clock, the environment, the Telegram bot) is
embedded as a pure function that receives the answers of the outside world as
arguments and returns, next to its result, the ordered trace of the effects it
performs (`Action`).  A goroutine is embedded as the function it runs; the
interleaving of goroutines is a transition system over the shared registry.

Conventions:
* A Go `string` is a finite byte sequence.  It is embedded as a list with one
  element per byte; `len s` is `List.length` and `s[:n]` is `List.take n`
  (guarded by the bounds check Go performs).
* `time.Time` and `time.Duration` are integers counting nanoseconds (since the
  Unix epoch for an instant); the embedding does not bound them to 64 bits.
* `debug(...)` only prints, and only when `DEBUG` is set; it leaves no trace.
  Its arguments are still evaluated, which matters where they dereference.
-/

namespace Teleglogger

/-! ## Strings, time, identifiers -/

/-- Go `string`, one list element per byte. -/
abbrev GoString := List Char

/-- Instant `time.Time`, in nanoseconds since the Unix epoch. -/
abbrev Time := Int

/-- Span `time.Duration`, in nanoseconds. -/
abbrev Duration := Int

/-- Method `Time.Unix`: whole seconds since the epoch, rounded down. -/
def Time.Unix (t : Time) : Int := t / 1000000000

/-- Method `Time.Add`. -/
def Time.Add (t : Time) (d : Duration) : Time := t + d

/-- Function `time.Unix(sec, nsec)`. -/
def timeUnix (sec nsec : Int) : Time := sec * 1000000000 + nsec

def defaultPumpName : GoString := "pump".toList
def pumpEventStatusStartName : GoString := "start".toList
def pumpEventStatusRestartName : GoString := "restart".toList
def pumpEventStatusRenameName : GoString := "rename".toList
def pumpEventStatusDieName : GoString := "die".toList
def trueString : GoString := "true".toList
def pumpMaxIDLen : Nat := 12

/-- Function `normalID` (main.go 54-59). -/
def normalID (id : GoString) : GoString :=
  if id.length > pumpMaxIDLen then id.take pumpMaxIDLen else id

/-- Function `strings.Contains`: `substr` occurs somewhere in `s`. -/
def stringsContains : GoString → GoString → Bool
  | [], substr => substr.isPrefixOf []
  | c :: s, substr => substr.isPrefixOf (c :: s) || stringsContains s substr

/-- Function `strings.TrimSuffix`. -/
def stringsTrimSuffix (s suffix : GoString) : GoString :=
  if suffix.isSuffixOf s then s.take (s.length - suffix.length) else s

/-- Function `GetEnvDefault` (main.go 166-171); `val` is what `os.Getenv(name)` returned. -/
def GetEnvDefault (val dfault : GoString) : GoString :=
  if val ≠ [] then val else dfault

/-! ## The Docker client's data -/

namespace docker

structure Config where
  Tty : Bool
  deriving DecidableEq, Repr, Inhabited

structure LogConfig where
  Type_ : GoString
  deriving DecidableEq, Repr, Inhabited

structure HostConfig where
  LogConfig : docker.LogConfig
  deriving DecidableEq, Repr, Inhabited

structure State where
  Running : Bool
  deriving DecidableEq, Repr, Inhabited

/-- The fields of `docker.Container` that main.go reads.  `Config` and `HostConfig`
are pointers (`*Config`, `*HostConfig`); `none` is the nil pointer, which a
successful inspection leaves when the answer carries no such object.  `State` is
a struct value. -/
structure Container where
  ID : GoString
  Name : GoString
  Config : Option docker.Config
  HostConfig : Option docker.HostConfig
  State : docker.State
  deriving DecidableEq, Repr, Inhabited

structure APIEvents where
  ID : GoString
  Status : GoString
  deriving DecidableEq, Repr

/-- The fields of `docker.LogsOptions` that `pumpLogs` sets (the two stream
writers are the pump's own pipes). -/
structure LogsOptions where
  Container : GoString
  Stdout : Bool
  Stderr : Bool
  Follow : Bool
  Tail : GoString
  Since : Int
  InactivityTimeout : Duration
  RawTerminal : Bool
  deriving DecidableEq, Repr

end docker

/-- What `client.InspectContainerWithOptions` returns.  The client returns a nil
container together with every non-nil error; `noSuchContainer` is the error of
type `*docker.NoSuchContainer`. -/
inductive InspectResult
  | ok (container : docker.Container)
  | noSuchContainer
  | otherError
  deriving DecidableEq, Repr

/-- What `client.Logs` returns once the attachment has ended: nil, the sentinel
`docker.ErrInactivityTimeout`, or any other error. -/
inductive LogsError
  | nil
  | ErrInactivityTimeout
  | other
  deriving DecidableEq, Repr

/-! ## Effects and outcomes -/

/-- One externally visible effect. -/
inductive Action
  | logPrintln (msg : String)
  | logFatal
  | inspect (id : GoString)
  | lock
  | unlock
  | mapLookup (key : GoString)
  | mapInsert (key : GoString)
  | mapDelete (key : GoString)
  | setName (key : GoString) (name : GoString)
  | logs (opts : docker.LogsOptions)
  | closeOut
  | closeErr
  | goLoop (id : GoString)
  | botSend (chatID : Int) (text : GoString)
  deriving DecidableEq, Repr

/-- How a call ends: it returns, the process exits through `log.Fatal`, or the
goroutine panics (which ends the process as well). -/
inductive Outcome (α : Type)
  | returned (a : α)
  | fatal
  | panicked
  deriving DecidableEq, Repr

/-! ## The pump registry -/

/-- Record type `containerPump` (main.go 282-284). -/
structure containerPump where
  container : docker.Container
  deriving DecidableEq, Repr, Inhabited

/-- Field `LogsPump.pumps`, a Go `map[string]*containerPump`, as an association list. -/
abbrev Registry := List (GoString × containerPump)

namespace Registry

/-- Go `v, ok := m[k]`. -/
def get : Registry → GoString → Option containerPump
  | [], _ => none
  | (k, v) :: m, key => if k = key then some v else get m key

/-- Go `m[k] = v`: overwrite the entry of `k`, or add one. -/
def set : Registry → GoString → containerPump → Registry
  | [], key, v => [(key, v)]
  | (k, w) :: m, key, v => if k = key then (k, v) :: m else (k, w) :: set m key v

/-- Go `delete(m, k)`. -/
def delete : Registry → GoString → Registry
  | [], _ => []
  | (k, w) :: m, key => if k = key then delete m key else (k, w) :: delete m key

/-- The keys of the map. -/
def keys (m : Registry) : List GoString := m.map Prod.fst

/-- Number of records stored for one identity. -/
def count (m : Registry) (key : GoString) : Nat := (m.filter (fun e => e.1 = key)).length

end Registry

/-! ## Process-wide configuration -/

/-- The package-level variables of main.go that the pump manager reads.
`matchre` is the compiled pattern, given as its `Match` function;
`botPresent` says whether `Bot` is non-nil. -/
structure Globals where
  allowTTY : Bool
  matchre : GoString → Bool
  sendTg : Bool
  tgChatID : Int
  botPresent : Bool

/-! ## Filters of the start path (main.go 135-157) -/

/-- Function `logDriverSupported`; `none` when `container.HostConfig` is nil and
the dereference panics. -/
def logDriverSupported (container : docker.Container) : Option Bool :=
  match container.HostConfig with
  | none => none
  | some hostConfig =>
      if hostConfig.LogConfig.Type_ = "json-file".toList then some true
      else if hostConfig.LogConfig.Type_ = "journald".toList then some true
      else if hostConfig.LogConfig.Type_ = "db".toList then some true
      else some false

def ignoreContainer (container : docker.Container) : Bool :=
  if stringsContains container.Name "teleglogger".toList then true else false

/-- Function `ignoreContainerTTY`; `none` when `container.Config` is nil and the
dereference panics (`container.Config.Tty` is evaluated first). -/
def ignoreContainerTTY (allowTTY : Bool) (container : docker.Container) : Option Bool :=
  match container.Config with
  | none => none
  | some config => if config.Tty && !allowTTY then some true else some false

/-- Function `newContainerPump` (main.go 286-311), the record it returns.  The two
line-production goroutines it starts are `newContainerPump.pump` below. -/
def newContainerPump (container : docker.Container) : containerPump :=
  { container := container }

/-! ## `LogsPump.rename` (main.go 85-95) -/

/-- Method `LogsPump.rename`.  The lock is taken first and released by the deferred
`Unlock`, also when the body panics.  The inspection error is discarded; a nil
container is dereferenced by `container.State` (an argument of `debug`) when the
pump is absent and by `container.Name` when it is present. -/
def rename (insp : InspectResult) (event : docker.APIEvents) (pumps : Registry) :
    List Action × Outcome Registry :=
  let pre := [Action.lock, Action.inspect event.ID, Action.mapLookup (normalID event.ID)]
  match pumps.get (normalID event.ID), insp with
  | none, InspectResult.ok _ => (pre ++ [Action.unlock], Outcome.returned pumps)
  | none, _ => (pre ++ [Action.unlock], Outcome.panicked)
  | some pump, InspectResult.ok container =>
      (pre ++ [Action.setName (normalID event.ID) container.Name, Action.unlock],
        Outcome.returned
          (pumps.set (normalID event.ID) { container := { pump.container with Name := container.Name } }))
  | some _, _ => (pre ++ [Action.unlock], Outcome.panicked)

/-! ## Notifications (main.go 370-401) -/

/-- Function `tgString`; `ts` is the formatted current time, `sendErr` whether
`Bot.Send` returns an error.  Returns whether its error result is non-nil. -/
def tgString (g : Globals) (ts : GoString) (sendErr : Bool) (msg : GoString) :
    List Action × Bool :=
  if !g.sendTg then ([], false)
  else if g.botPresent then
    ([Action.logPrintln "Sending tgString():",
      Action.botSend g.tgChatID (ts ++ ", ".toList ++ msg)], sendErr)
  else ([Action.logPrintln "Sending tgString():"], false)

/-- The message passed to `containerPump.send` (main.go 275-280). -/
structure Message where
  Container : docker.Container
  Source : GoString
  Data : GoString
  Time : Time
  deriving DecidableEq, Repr

/-- Function `tgMessage`.  `m.Container.ID[:4]` panics on an identifier shorter
than four bytes. -/
def tgMessage (g : Globals) (ts : GoString) (sendErr : Bool) (m : Message) :
    List Action × Outcome Bool :=
  if m.Container.ID.length < 4 then ([], Outcome.panicked)
  else
    let msg := m.Container.Name ++ " ".toList ++ m.Container.ID.take 4 ++ " ".toList
      ++ m.Source ++ " ".toList ++ m.Data
    if !g.sendTg then ([], Outcome.returned false)
    else if g.botPresent then
      ([Action.logPrintln "Sending tgMessage():",
        Action.botSend g.tgChatID (ts ++ ", ".toList ++ msg)], Outcome.returned sendErr)
    else ([Action.logPrintln "Sending tgMessage():"], Outcome.returned false)

/-- Method `containerPump.send` (main.go 313-323).  Both branches evaluate
`cp.container.ID[:4]` for `debug`, which panics on a short identifier. -/
def containerPump.send (g : Globals) (ts : GoString) (sendErr : Bool) (cp : containerPump)
    (msg : Message) : List Action × Outcome Unit :=
  if g.matchre msg.Data then
    if cp.container.ID.length < 4 then ([], Outcome.panicked)
    else
      match tgMessage g ts sendErr msg with
      | (tr, Outcome.returned true) =>
          (tr ++ [Action.logPrintln "TG send failed"], Outcome.returned ())
      | (tr, Outcome.returned false) => (tr, Outcome.returned ())
      | (tr, Outcome.fatal) => (tr, Outcome.fatal)
      | (tr, Outcome.panicked) => (tr, Outcome.panicked)
  else
    if cp.container.ID.length < 4 then ([], Outcome.panicked)
    else ([], Outcome.returned ())

/-! ## `LogsPump.reportDead` (main.go 173-183) -/

/-- Method `LogsPump.reportDead`.  After a failed inspection the error is logged
and execution continues to `c.Name`, with `c` nil. -/
def reportDead (g : Globals) (ts : GoString) (sendErr : Bool) (insp : InspectResult)
    (event : docker.APIEvents) : List Action × Outcome Unit :=
  let pre := [Action.logPrintln "reportDead():", Action.inspect (normalID event.ID)]
  match insp with
  | InspectResult.ok c =>
      if c.ID.length < 4 then (pre, Outcome.panicked)
      else
        let r := tgString g ts sendErr (c.Name ++ " ".toList ++ c.ID.take 4 ++ " died".toList)
        (pre ++ r.1, Outcome.returned ())
  | _ =>
      (pre ++ [Action.logPrintln "reportDead(): error inspecting container:"], Outcome.panicked)

/-! ## `LogsPump.pumpLogs` (main.go 185-273) -/

/-- The variables captured by the goroutine that `pumpLogs` starts (main.go 228-272). -/
structure LoopTask where
  id : GoString
  tail : GoString
  sinceTime : Time
  inactivityTimeout : Duration
  rawTerminal : Bool
  deriving DecidableEq, Repr

/-- Method `LogsPump.pumpLogs` up to and including the `go` statement.  `tailEnv` is
what `os.Getenv("TAIL")` returned, `insp` the answer to the inspection, `now` the
reading of `time.Now()`.  Returns the registry as it is left and the goroutine
started, if any.  The three places that dereference `container.Config` or
`container.HostConfig` (main.go 190, 198, 221) panic on a nil pointer; in
`allowTTY && container.Config.Tty` the pointer is read only when `allowTTY` holds. -/
def pumpLogs (g : Globals) (tailEnv : GoString) (insp : InspectResult) (now : Time)
    (event : docker.APIEvents) (backlog : Bool) (inactivityTimeout : Duration)
    (pumps : Registry) : List Action × Outcome (Registry × Option LoopTask) :=
  let id := normalID event.ID
  let pre := [Action.logPrintln "pump.pumpLogs(): start:", Action.inspect id]
  match insp with
  | InspectResult.ok container =>
      match ignoreContainerTTY g.allowTTY container with
      | none => (pre, Outcome.panicked)
      | some true => (pre, Outcome.returned (pumps, none))
      | some false =>
        if ignoreContainer container then (pre, Outcome.returned (pumps, none))
        else
          match logDriverSupported container with
          | none => (pre, Outcome.panicked)
          | some false => (pre, Outcome.returned (pumps, none))
          | some true =>
            let tail := GetEnvDefault tailEnv "all".toList
            let sinceTime : Time := if backlog then timeUnix 0 0 else now
            match pumps.get id with
            | some _ =>
                (pre ++ [Action.lock, Action.mapLookup id, Action.unlock],
                  Outcome.returned (pumps, none))
            | none =>
                match (if g.allowTTY then Option.map docker.Config.Tty container.Config
                    else some false) with
                | none => (pre ++ [Action.lock, Action.mapLookup id], Outcome.panicked)
                | some rawTerminal =>
                    (pre ++ [Action.lock, Action.mapLookup id, Action.mapInsert id,
                        Action.unlock, Action.goLoop id],
                      Outcome.returned (pumps.set id (newContainerPump container),
                        some { id := id, tail := tail, sinceTime := sinceTime,
                               inactivityTimeout := inactivityTimeout,
                               rawTerminal := rawTerminal }))
  | _ => (pre ++ [Action.logFatal], Outcome.fatal)

/-- What the outside world answers during one pass of the reconnect loop: how
`client.Logs` ended, the reading of `time.Now()` after it, the inspection. -/
structure Attempt where
  logsErr : LogsError
  now : Time
  inspect : InspectResult
  deriving DecidableEq, Repr

/-- How one pass of the reconnect loop ends. -/
inductive IterOutcome
  | continue_ (sinceTime : Time)
  | return_ (pumps : Registry)
  | fatal
  deriving DecidableEq, Repr

/-- The options of the `client.Logs` call (main.go 231-242). -/
def LoopTask.logsOptions (t : LoopTask) (sinceTime : Time) : docker.LogsOptions :=
  { Container := t.id, Stdout := true, Stderr := true, Follow := true, Tail := t.tail,
    Since := Time.Unix sinceTime, InactivityTimeout := t.inactivityTimeout,
    RawTerminal := t.rawTerminal }

/-- One pass of the body of the `for` loop (main.go 230-270); `pumps` is the
registry as the pass finds it when it takes the lock. -/
def loopBody (t : LoopTask) (sinceTime : Time) (a : Attempt) (pumps : Registry) :
    List Action × IterOutcome :=
  let since1 : Time := a.now
  let since2 : Time :=
    if a.logsErr = LogsError.ErrInactivityTimeout then Time.Add since1 (-t.inactivityTimeout)
    else since1
  let pre := [Action.logs (t.logsOptions sinceTime), Action.inspect t.id]
  let dead := pre ++ [Action.closeOut, Action.closeErr, Action.lock, Action.mapDelete t.id,
    Action.unlock]
  match a.inspect with
  | InspectResult.otherError => (pre ++ [Action.logFatal], IterOutcome.fatal)
  | InspectResult.noSuchContainer => (dead, IterOutcome.return_ (pumps.delete t.id))
  | InspectResult.ok container =>
      if container.State.Running then (pre, IterOutcome.continue_ since2)
      else (dead, IterOutcome.return_ (pumps.delete t.id))

/-- How far the reconnect loop has come once the outside world has given the
listed answers. -/
inductive LoopOutcome
  | attached
  | stopped (pumps : Registry)
  | fatal
  deriving DecidableEq, Repr

/-- The goroutine of main.go 228-272, run against the answers `as`.  When they are
used up the loop sits in its next `client.Logs` call. -/
def reconnectLoop (t : LoopTask) : Time → List Attempt → Registry → List Action × LoopOutcome
  | sinceTime, [], _ => ([Action.logs (t.logsOptions sinceTime)], LoopOutcome.attached)
  | sinceTime, a :: rest, pumps =>
      match loopBody t sinceTime a pumps with
      | (tr, IterOutcome.continue_ s) =>
          ((tr ++ (reconnectLoop t s rest pumps).1), (reconnectLoop t s rest pumps).2)
      | (tr, IterOutcome.return_ pumps1) => (tr, LoopOutcome.stopped pumps1)
      | (tr, IterOutcome.fatal) => (tr, LoopOutcome.fatal)

/-- The `Since` parameters of the `client.Logs` calls of a trace, in order. -/
def sinceParams : List Action → List Int
  | [] => []
  | Action.logs opts :: tr => opts.Since :: sinceParams tr
  | _ :: tr => sinceParams tr

/-! ## Line production (main.go 290-307) -/

/-- Method `bufio.Reader.ReadString(delim)` on the bytes the stream still delivers
before it ends: the data up to and including the first delimiter, what is left
of the stream, and whether an error (end of input) is returned instead of a
delimiter. -/
def ReadString (delim : Char) : GoString → GoString × GoString × Bool
  | [] => ([], [], true)
  | c :: cs =>
      if c = delim then ([c], cs, false)
      else ((c :: (ReadString delim cs).1), (ReadString delim cs).2.1, (ReadString delim cs).2.2)

/-- The closure `pump` of `newContainerPump`: the messages it hands to `cp.send`,
in order, and whether the loop has returned.  `fuel` bounds the number of
passes; `clock k` is the reading of `time.Now()` in pass `k`. -/
def newContainerPump.pump (container : docker.Container) (clock : Nat → Time)
    (source : GoString) : Nat → Nat → GoString → List Message × Bool
  | 0, _, _ => ([], false)
  | fuel + 1, k, input =>
      match ReadString '\n' input with
      | (_, _, true) => ([], true)
      | (line, rest, false) =>
          (({ Data := stringsTrimSuffix line "\n".toList, Container := container,
              Time := clock k, Source := source } : Message)
            :: (newContainerPump.pump container clock source fuel (k + 1) rest).1,
           (newContainerPump.pump container clock source fuel (k + 1) rest).2)

/-- The bytes of a stream into which the lines `ls` were written, each followed
by a newline. -/
def writeLines : List GoString → GoString
  | [] => []
  | l :: ls => l ++ '\n' :: writeLines ls

/-! ## The pattern (main.go 342): Go's `regexp`, as far as the default needs it -/

/-- Regular expressions of the Go `regexp` package, the operators that occur in
the default pattern.  `anyNotNL` is `.` (any byte but a newline), `oneOf cs` a
class of bytes. -/
inductive Regex
  | empty
  | eps
  | anyNotNL
  | oneOf (cs : List Char)
  | seq (r s : Regex)
  | alt (r s : Regex)
  | star (r : Regex)
  deriving DecidableEq, Repr

namespace Regex

/-- Whether the expression matches the empty string. -/
def nullable : Regex → Bool
  | empty => false
  | eps => true
  | anyNotNL => false
  | oneOf _ => false
  | seq r s => nullable r && nullable s
  | alt r s => nullable r || nullable s
  | star _ => true

/-- Sequence, with the trivial cases simplified. -/
def mkSeq : Regex → Regex → Regex
  | empty, _ => empty
  | eps, s => s
  | r, s => seq r s

/-- Alternative, with the trivial cases simplified. -/
def mkAlt : Regex → Regex → Regex
  | empty, s => s
  | r, empty => r
  | r, s => alt r s

/-- The expression matching what may follow the byte `c`. -/
def deriv : Regex → Char → Regex
  | empty, _ => empty
  | eps, _ => empty
  | anyNotNL, c => if c = '\n' then empty else eps
  | oneOf cs, c => if c ∈ cs then eps else empty
  | seq r s, c =>
      if nullable r then mkAlt (mkSeq (deriv r c) s) (deriv s c) else mkSeq (deriv r c) s
  | alt r s, c => mkAlt (deriv r c) (deriv s c)
  | star r, c => mkSeq (deriv r c) (star r)

/-- Whether the expression matches some prefix of the input. -/
def matchPrefix : GoString → Regex → Bool
  | [], r => nullable r
  | c :: cs, r => nullable r || matchPrefix cs (deriv r c)

/-- Method `Regexp.Match`: the expression matches somewhere in the input. -/
def Match (r : Regex) : GoString → Bool
  | [] => nullable r
  | c :: cs => matchPrefix (c :: cs) r || Match r cs

/-- A letter under the flag `(?i)`: either case. -/
def letter (lower upper : Char) : Regex := oneOf [lower, upper]

end Regex

/-- The default of `MATCHRE`, the pattern `(?i).*error.*`. -/
def defaultMatchre : Regex :=
  Regex.seq (Regex.star Regex.anyNotNL)
    (Regex.seq (Regex.letter 'e' 'E')
      (Regex.seq (Regex.letter 'r' 'R')
        (Regex.seq (Regex.letter 'r' 'R')
          (Regex.seq (Regex.letter 'o' 'O')
            (Regex.seq (Regex.letter 'r' 'R') (Regex.star Regex.anyNotNL))))))

/-! ## The goroutines together: the registry as shared state -/

/-- The shared registry and the identities of the reconnect-loop goroutines that
have been started and have not yet deleted their entry. -/
structure System where
  pumps : Registry
  loops : List GoString
  deriving DecidableEq, Repr

/-- The state in which `main` creates the manager: empty map, no goroutine. -/
def System.empty : System := { pumps := [], loops := [] }

/-- What can happen to the registry: `Run` calls `pumpLogs` for a start or restart
event, or the attachment of a running reconnect loop ends and the loop makes its
pass.  Each carries the answers of the outside world. -/
inductive Event
  | start (tailEnv : GoString) (insp : InspectResult) (now : Time) (event : docker.APIEvents)
      (backlog : Bool)
  | attachEnded (t : LoopTask) (sinceTime : Time) (a : Attempt)
  deriving DecidableEq, Repr

/-- One event, its locked section taken as atomic.  `none` when the process ends
(`log.Fatal`) or when the event names a loop that is not running. -/
def System.step (g : Globals) (inactivityTimeout : Duration) (s : System) :
    Event → Option System
  | Event.start tailEnv insp now event backlog =>
      match (pumpLogs g tailEnv insp now event backlog inactivityTimeout s.pumps).2 with
      | Outcome.returned (pumps, some t) => some { pumps := pumps, loops := s.loops ++ [t.id] }
      | Outcome.returned (pumps, none) => some { pumps := pumps, loops := s.loops }
      | _ => none
  | Event.attachEnded t sinceTime a =>
      if t.id ∈ s.loops then
        match (loopBody t sinceTime a s.pumps).2 with
        | IterOutcome.continue_ _ => some s
        | IterOutcome.return_ pumps => some { pumps := pumps, loops := s.loops.erase t.id }
        | IterOutcome.fatal => none
      else none

/-- A sequence of events, from a given state. -/
def System.run (g : Globals) (inactivityTimeout : Duration) : List Event → System → Option System
  | [], s => some s
  | e :: es, s =>
      match System.step g inactivityTimeout s e with
      | some s1 => System.run g inactivityTimeout es s1
      | none => none

/-- The states reachable from the empty registry. -/
def Reachable (g : Globals) (inactivityTimeout : Duration) (s : System) : Prop :=
  ∃ es, System.run g inactivityTimeout es System.empty = some s

/-- Number of running reconnect loops of one identity. -/
def System.loopCount (s : System) (id : GoString) : Nat :=
  (s.loops.filter (fun l => l = id)).length

/-- Every identity has at most one record and at most one running reconnect loop,
and the running loops are those of the registered identities. -/
def System.AtMostOne (s : System) : Prop :=
  ∀ id : GoString, s.pumps.count id ≤ 1 ∧ s.loopCount id ≤ 1 ∧
    (id ∈ s.loops ↔ (s.pumps.get id).isSome = true)

/-- The form of the invariant that the proofs carry along. -/
def System.WF (s : System) : Prop :=
  s.pumps.keys.Nodup ∧ s.loops.Nodup ∧ ∀ id, id ∈ s.loops ↔ id ∈ s.pumps.keys

/-! ## Sample data -/

/-- A running container with the default log driver. -/
def sampleContainer : docker.Container :=
  { ID := "abc123456789def0".toList, Name := "web".toList, Config := some { Tty := false },
    HostConfig := some { LogConfig := { Type_ := "json-file".toList } },
    State := { Running := true } }

/-- Configuration with notifications enabled and the default pattern. -/
def sampleGlobals : Globals :=
  { allowTTY := false, matchre := defaultMatchre.Match, sendTg := true, tgChatID := 42,
    botPresent := true }

/-- A start event carrying the full identifier of `sampleContainer`. -/
def sampleEvent : docker.APIEvents :=
  { ID := "abc123456789def0".toList, Status := pumpEventStatusStartName }

/-- The state after `sampleEvent` has been accepted. -/
def sampleSystem : System :=
  { pumps := [("abc123456789".toList, newContainerPump sampleContainer)],
    loops := ["abc123456789".toList] }

/-- A rename event and a die event for `sampleContainer`. -/
def sampleRenameEvent : docker.APIEvents :=
  { ID := "abc123456789def0".toList, Status := pumpEventStatusRenameName }

def sampleDieEvent : docker.APIEvents :=
  { ID := "abc123456789def0".toList, Status := pumpEventStatusDieName }

/-- The goroutine started for `sampleEvent`, with an inactivity timeout of five seconds. -/
def sampleTask : LoopTask :=
  { id := "abc123456789".toList, tail := "all".toList, sinceTime := 0,
    inactivityTimeout := 5000000000, rawTerminal := false }

/-- Whether the inspection of a pass reports the container running. -/
def Attempt.running (a : Attempt) : Bool :=
  match a.inspect with
  | InspectResult.ok container => container.State.Running
  | _ => false

/-- Whether the loop has stopped (torn its pump down). -/
def LoopOutcome.isStopped : LoopOutcome → Bool
  | LoopOutcome.stopped _ => true
  | _ => false

/-- A line of `sampleContainer` on standard error. -/
def sampleMessage : Message :=
  { Container := sampleContainer, Source := "stderr".toList,
    Data := "Connection ERROR: timeout".toList, Time := 0 }

/-! ## Lock discipline of a trace -/

/-- Every access to the map in the trace happens with the lock held (`held` says
whether it is held at the start). -/
def registryUnderLock : Bool → List Action → Bool
  | _, [] => true
  | _, Action.lock :: tr => registryUnderLock true tr
  | _, Action.unlock :: tr => registryUnderLock false tr
  | held, Action.mapLookup _ :: tr => held && registryUnderLock held tr
  | held, Action.mapInsert _ :: tr => held && registryUnderLock held tr
  | held, Action.mapDelete _ :: tr => held && registryUnderLock held tr
  | held, Action.setName _ _ :: tr => held && registryUnderLock held tr
  | held, _ :: tr => registryUnderLock held tr

/-- No call to the Docker client (inspection, log attachment) in the trace happens
with the lock held. -/
def noBlockingUnderLock : Bool → List Action → Bool
  | _, [] => true
  | _, Action.lock :: tr => noBlockingUnderLock true tr
  | _, Action.unlock :: tr => noBlockingUnderLock false tr
  | held, Action.inspect _ :: tr => !held && noBlockingUnderLock held tr
  | held, Action.logs _ :: tr => !held && noBlockingUnderLock held tr
  | held, _ :: tr => noBlockingUnderLock held tr

/-- The keys of the map accesses of a trace. -/
def registryKeys : List Action → List GoString
  | [] => []
  | Action.mapLookup k :: tr => k :: registryKeys tr
  | Action.mapInsert k :: tr => k :: registryKeys tr
  | Action.mapDelete k :: tr => k :: registryKeys tr
  | Action.setName k _ :: tr => k :: registryKeys tr
  | _ :: tr => registryKeys tr

/-- The texts handed to `Bot.Send` in a trace, in order. -/
def sinkCalls : List Action → List GoString
  | [] => []
  | Action.botSend _ text :: tr => text :: sinkCalls tr
  | _ :: tr => sinkCalls tr

/-! # Properties -/

/-! ## The map operations -/

theorem Registry.get_eq_none_iff (m : Registry) (key : GoString) :
    m.get key = none ↔ key ∉ m.keys := by
  induction m with
  | nil => simp [Registry.get, Registry.keys]
  | cons e m ih =>
    obtain ⟨k, v⟩ := e
    by_cases h : k = key
    · simp [Registry.get, Registry.keys, h]
    · have h2 : ¬ key = k := fun h3 => h h3.symm
      simp only [Registry.keys] at ih
      simp [Registry.get, Registry.keys, h, h2, ih]

theorem Registry.get_isSome_iff (m : Registry) (key : GoString) :
    (m.get key).isSome = true ↔ key ∈ m.keys := by
  have h := Registry.get_eq_none_iff m key
  cases hg : m.get key with
  | none => simp [hg] at h; simp [h]
  | some v => simp [hg] at h; simp [h]

theorem Registry.keys_set_of_absent (m : Registry) (key : GoString) (v : containerPump)
    (h : m.get key = none) : (m.set key v).keys = m.keys ++ [key] := by
  induction m with
  | nil => simp [Registry.set, Registry.keys]
  | cons e m ih =>
    obtain ⟨k, w⟩ := e
    by_cases hk : k = key
    · simp [Registry.get, hk] at h
    · simp only [Registry.get, hk, if_false] at h
      have ih2 := ih h
      simp only [Registry.keys] at ih2
      simp [Registry.set, Registry.keys, hk, ih2]

theorem Registry.keys_set_of_present (m : Registry) (key : GoString) (v w : containerPump)
    (h : m.get key = some w) : (m.set key v).keys = m.keys := by
  induction m with
  | nil => simp [Registry.get] at h
  | cons e m ih =>
    obtain ⟨k, u⟩ := e
    by_cases hk : k = key
    · simp [Registry.set, Registry.keys, hk]
    · simp only [Registry.get, hk, if_false] at h
      have ih2 := ih h
      simp only [Registry.keys] at ih2
      simp [Registry.set, Registry.keys, hk, ih2]

theorem Registry.get_set_self (m : Registry) (key : GoString) (v : containerPump) :
    (m.set key v).get key = some v := by
  induction m with
  | nil => simp [Registry.set, Registry.get]
  | cons e m ih =>
    obtain ⟨k, u⟩ := e
    by_cases hk : k = key
    · simp [Registry.set, Registry.get, hk]
    · simp [Registry.set, Registry.get, hk, ih]

theorem Registry.get_set_other (m : Registry) (key other : GoString) (v : containerPump)
    (h : other ≠ key) : (m.set key v).get other = m.get other := by
  induction m with
  | nil =>
    have h2 : ¬ key = other := fun h3 => h h3.symm
    simp [Registry.set, Registry.get, h2]
  | cons e m ih =>
    obtain ⟨k, u⟩ := e
    by_cases hk : k = key
    · have h2 : ¬ key = other := fun h3 => h h3.symm
      simp [Registry.set, Registry.get, hk, h2]
    · by_cases ho : k = other
      · subst ho
        simp [Registry.set, Registry.get, hk]
      · simp [Registry.set, Registry.get, hk, ho, ih]

theorem Registry.keys_delete (m : Registry) (key : GoString) :
    (m.delete key).keys = m.keys.filter (fun k => decide (k ≠ key)) := by
  induction m with
  | nil => simp [Registry.delete, Registry.keys]
  | cons e m ih =>
    obtain ⟨k, u⟩ := e
    simp only [Registry.keys] at ih
    by_cases hk : k = key
    · simp [Registry.delete, Registry.keys, hk, ih]
    · simp [Registry.delete, Registry.keys, hk, ih]

theorem Registry.get_delete_self (m : Registry) (key : GoString) :
    (m.delete key).get key = none := by
  rw [Registry.get_eq_none_iff, Registry.keys_delete]
  simp

theorem Registry.get_delete_other (m : Registry) (key other : GoString) (h : other ≠ key) :
    (m.delete key).get other = m.get other := by
  induction m with
  | nil => simp [Registry.delete, Registry.get]
  | cons e m ih =>
    obtain ⟨k, u⟩ := e
    by_cases hk : k = key
    · have h2 : ¬ key = other := fun h3 => h h3.symm
      simp [Registry.delete, Registry.get, hk, h2, ih]
    · by_cases ho : k = other
      · subst ho
        simp [Registry.delete, Registry.get, hk]
      · simp [Registry.delete, Registry.get, hk, ho, ih]

theorem Registry.count_eq_count_keys (m : Registry) (key : GoString) :
    m.count key = (m.keys.filter (fun k => decide (k = key))).length := by
  induction m with
  | nil => simp [Registry.count, Registry.keys]
  | cons e m ih =>
    obtain ⟨k, u⟩ := e
    simp only [Registry.count, Registry.keys] at ih
    by_cases hk : k = key
    · simp [Registry.count, Registry.keys, List.filter_cons, hk, ih]
    · simp [Registry.count, Registry.keys, List.filter_cons, hk, ih]

theorem filter_eq_length_le_one (l : List GoString) (key : GoString) (h : l.Nodup) :
    (l.filter (fun k => decide (k = key))).length ≤ 1 := by
  induction l with
  | nil => simp
  | cons a l ih =>
    rw [List.nodup_cons] at h
    by_cases ha : a = key
    · subst ha
      have hnil : l.filter (fun k => decide (k = a)) = [] := by
        rw [List.filter_eq_nil_iff]
        intro x hx hxa
        simp only [decide_eq_true_eq] at hxa
        subst hxa
        exact h.1 hx
      simp [List.filter_cons, hnil]
    · simp [List.filter_cons, ha, ih h.2]

/-! ## Identities -/

theorem normalID_length_le (id : GoString) : (normalID id).length ≤ 12 := by
  unfold normalID pumpMaxIDLen
  split
  · simp [List.length_take]
  · omega

theorem normalID_idem (id : GoString) : normalID (normalID id) = normalID id := by
  have h := normalID_length_le id
  generalize normalID id = x at h
  unfold normalID pumpMaxIDLen
  rw [if_neg (by omega)]

theorem stringsContains_iff_infix (s substr : GoString) :
    stringsContains s substr = true ↔ substr <:+: s := by
  induction s with
  | nil =>
    cases substr with
    | nil => simp [stringsContains]
    | cons c t => simp [stringsContains, List.isPrefixOf]
  | cons c s ih =>
    rw [stringsContains, Bool.or_eq_true, ih, List.infix_cons_iff, List.isPrefixOf_iff_prefix]

/-! ## The start path -/

theorem ignoreContainerTTY_of_config (allowTTY : Bool) (container : docker.Container)
    (config : docker.Config) (h : container.Config = some config) :
    ignoreContainerTTY allowTTY container = some (config.Tty && !allowTTY) := by
  unfold ignoreContainerTTY
  rw [h]
  cases hT : config.Tty <;> cases allowTTY <;> simp [hT]

theorem ignoreContainerTTY_of_nil (allowTTY : Bool) (container : docker.Container)
    (h : container.Config = none) : ignoreContainerTTY allowTTY container = none := by
  unfold ignoreContainerTTY
  rw [h]

theorem config_of_ignoreContainerTTY (allowTTY : Bool) (container : docker.Container) (b : Bool)
    (h : ignoreContainerTTY allowTTY container = some b) :
    ∃ config, container.Config = some config := by
  cases hc : container.Config with
  | none => rw [ignoreContainerTTY_of_nil allowTTY container hc] at h; cases h
  | some config => exact ⟨config, rfl⟩

theorem ignoreContainerTTY_iff (allowTTY : Bool) (container : docker.Container)
    (config : docker.Config) (h : container.Config = some config) :
    ignoreContainerTTY allowTTY container = some true ↔
      (config.Tty = true ∧ allowTTY = false) := by
  rw [ignoreContainerTTY_of_config allowTTY container config h]
  cases hT : config.Tty <;> cases allowTTY <;> simp

theorem ignoreContainer_iff (container : docker.Container) :
    ignoreContainer container = true ↔ "teleglogger".toList <:+: container.Name := by
  unfold ignoreContainer
  rw [← stringsContains_iff_infix]
  cases stringsContains container.Name "teleglogger".toList <;> simp

theorem logDriverSupported_of_nil (container : docker.Container)
    (h : container.HostConfig = none) : logDriverSupported container = none := by
  unfold logDriverSupported
  rw [h]

theorem logDriverSupported_iff (container : docker.Container) (hostConfig : docker.HostConfig)
    (h : container.HostConfig = some hostConfig) :
    (logDriverSupported container = some true ↔
      (hostConfig.LogConfig.Type_ = "json-file".toList ∨
        hostConfig.LogConfig.Type_ = "journald".toList ∨
        hostConfig.LogConfig.Type_ = "db".toList)) ∧
    (logDriverSupported container = some false ↔
      ¬ (hostConfig.LogConfig.Type_ = "json-file".toList ∨
        hostConfig.LogConfig.Type_ = "journald".toList ∨
        hostConfig.LogConfig.Type_ = "db".toList)) := by
  unfold logDriverSupported
  rw [h]
  dsimp only
  by_cases h1 : hostConfig.LogConfig.Type_ = "json-file".toList
  · simp [h1]
  · by_cases h2 : hostConfig.LogConfig.Type_ = "journald".toList
    · simp [h2]
    · by_cases h3 : hostConfig.LogConfig.Type_ = "db".toList
      · simp [h3]
      · rw [if_neg h1, if_neg h2, if_neg h3]
        refine ⟨⟨fun hx => ?_, fun hx => ?_⟩, ⟨fun _ hx => ?_, fun _ => rfl⟩⟩
        · cases hx
        · rcases hx with hx | hx | hx
          · exact absurd hx h1
          · exact absurd hx h2
          · exact absurd hx h3
        · rcases hx with hx | hx | hx
          · exact absurd hx h1
          · exact absurd hx h2
          · exact absurd hx h3

theorem logDriverSupported_of_hostConfig (container : docker.Container)
    (hostConfig : docker.HostConfig) (h : container.HostConfig = some hostConfig) :
    ∃ b, logDriverSupported container = some b := by
  by_cases hx : (hostConfig.LogConfig.Type_ = "json-file".toList ∨
      hostConfig.LogConfig.Type_ = "journald".toList ∨
      hostConfig.LogConfig.Type_ = "db".toList)
  · exact ⟨true, ((logDriverSupported_iff container hostConfig h).1).2 hx⟩
  · exact ⟨false, ((logDriverSupported_iff container hostConfig h).2).2 hx⟩

/-- The filters of `pumpLogs` end in exactly one of three ways: a nil pointer is
dereferenced, the container is rejected, or it is accepted. -/
theorem pumpLogs_filters_cases (allowTTY : Bool) (container : docker.Container) :
    (ignoreContainerTTY allowTTY container = none ∨
      (ignoreContainerTTY allowTTY container = some false ∧ ignoreContainer container = false ∧
        logDriverSupported container = none)) ∨
    (ignoreContainerTTY allowTTY container = some true ∨
      (ignoreContainerTTY allowTTY container = some false ∧
        (ignoreContainer container = true ∨
          (ignoreContainer container = false ∧ logDriverSupported container = some false)))) ∨
    (ignoreContainerTTY allowTTY container = some false ∧ ignoreContainer container = false ∧
      logDriverSupported container = some true) := by
  cases h1 : ignoreContainerTTY allowTTY container with
  | none => simp
  | some b1 =>
    cases b1 with
    | true => simp
    | false =>
      cases h2 : ignoreContainer container with
      | true => simp
      | false =>
        cases h3 : logDriverSupported container with
        | none => simp
        | some b3 => cases b3 <;> simp

/-- A container without `Config`, or one that passes the first two filters and has
no `HostConfig`: `pumpLogs` panics on the nil pointer, before it takes the lock. -/
theorem pumpLogs_panicked (g : Globals) (tailEnv : GoString) (now : Time)
    (event : docker.APIEvents) (backlog : Bool) (inactivityTimeout : Duration)
    (pumps : Registry) (container : docker.Container)
    (h : ignoreContainerTTY g.allowTTY container = none ∨
      (ignoreContainerTTY g.allowTTY container = some false ∧ ignoreContainer container = false ∧
        logDriverSupported container = none)) :
    pumpLogs g tailEnv (InspectResult.ok container) now event backlog inactivityTimeout pumps =
      ([Action.logPrintln "pump.pumpLogs(): start:", Action.inspect (normalID event.ID)],
        Outcome.panicked) := by
  unfold pumpLogs
  rcases h with h | ⟨h1, h2, h3⟩
  · simp [h]
  · simp [h1, h2, h3]

/-- A rejected container: `pumpLogs` logs, inspects, and returns with the registry
as it was and no goroutine started. -/
theorem pumpLogs_rejected (g : Globals) (tailEnv : GoString) (now : Time)
    (event : docker.APIEvents) (backlog : Bool) (inactivityTimeout : Duration)
    (pumps : Registry) (container : docker.Container)
    (h : ignoreContainerTTY g.allowTTY container = some true ∨
      (ignoreContainerTTY g.allowTTY container = some false ∧
        (ignoreContainer container = true ∨
          (ignoreContainer container = false ∧ logDriverSupported container = some false)))) :
    pumpLogs g tailEnv (InspectResult.ok container) now event backlog inactivityTimeout pumps =
      ([Action.logPrintln "pump.pumpLogs(): start:", Action.inspect (normalID event.ID)],
        Outcome.returned (pumps, none)) := by
  unfold pumpLogs
  rcases h with h | ⟨h1, h2 | ⟨h2, h3⟩⟩
  · simp [h]
  · simp [h1, h2]
  · simp [h1, h2, h3]

/-- An accepted container whose identity is registered: the registry is only looked
up. -/
theorem pumpLogs_registered (g : Globals) (tailEnv : GoString) (now : Time)
    (event : docker.APIEvents) (backlog : Bool) (inactivityTimeout : Duration)
    (pumps : Registry) (container : docker.Container) (pump : containerPump)
    (h1 : ignoreContainerTTY g.allowTTY container = some false)
    (h2 : ignoreContainer container = false) (h3 : logDriverSupported container = some true)
    (hreg : pumps.get (normalID event.ID) = some pump) :
    pumpLogs g tailEnv (InspectResult.ok container) now event backlog inactivityTimeout pumps =
      ([Action.logPrintln "pump.pumpLogs(): start:", Action.inspect (normalID event.ID),
          Action.lock, Action.mapLookup (normalID event.ID), Action.unlock],
        Outcome.returned (pumps, none)) := by
  unfold pumpLogs
  simp [h1, h2, h3, hreg]

/-- An accepted container whose identity is not registered: one record is stored
under the normalized identity and the reconnect loop is started. -/
theorem pumpLogs_accepted (g : Globals) (tailEnv : GoString) (now : Time)
    (event : docker.APIEvents) (backlog : Bool) (inactivityTimeout : Duration)
    (pumps : Registry) (container : docker.Container) (config : docker.Config)
    (hc : container.Config = some config)
    (h1 : ignoreContainerTTY g.allowTTY container = some false)
    (h2 : ignoreContainer container = false) (h3 : logDriverSupported container = some true)
    (hreg : pumps.get (normalID event.ID) = none) :
    pumpLogs g tailEnv (InspectResult.ok container) now event backlog inactivityTimeout pumps =
      ([Action.logPrintln "pump.pumpLogs(): start:", Action.inspect (normalID event.ID),
          Action.lock, Action.mapLookup (normalID event.ID),
          Action.mapInsert (normalID event.ID), Action.unlock,
          Action.goLoop (normalID event.ID)],
        Outcome.returned (pumps.set (normalID event.ID) (newContainerPump container),
          some { id := normalID event.ID, tail := GetEnvDefault tailEnv "all".toList,
                 sinceTime := if backlog then timeUnix 0 0 else now,
                 inactivityTimeout := inactivityTimeout,
                 rawTerminal := if g.allowTTY && config.Tty then true else false })) := by
  unfold pumpLogs
  cases ha : g.allowTTY <;> cases ht : config.Tty <;> simp [ha, ht, hc, h2, h3, hreg] <;>
    simp [ha] at h1 <;> simp [h1]

/-- A failed inspection: `assert` ends the process. -/
theorem pumpLogs_inspect_failed (g : Globals) (tailEnv : GoString) (insp : InspectResult)
    (now : Time) (event : docker.APIEvents) (backlog : Bool) (inactivityTimeout : Duration)
    (pumps : Registry) (h : ∀ c, insp ≠ InspectResult.ok c) :
    pumpLogs g tailEnv insp now event backlog inactivityTimeout pumps =
      ([Action.logPrintln "pump.pumpLogs(): start:", Action.inspect (normalID event.ID),
          Action.logFatal], Outcome.fatal) := by
  unfold pumpLogs
  cases insp with
  | ok c => exact absurd rfl (h c)
  | noSuchContainer => simp
  | otherError => simp

/-! ## The registry as shared state -/

/-- The traces and outcomes `pumpLogs` can have. -/
theorem pumpLogs_shapes (g : Globals) (tailEnv : GoString) (insp : InspectResult) (now : Time)
    (event : docker.APIEvents) (backlog : Bool) (inactivityTimeout : Duration)
    (pumps : Registry) :
    pumpLogs g tailEnv insp now event backlog inactivityTimeout pumps =
      ([Action.logPrintln "pump.pumpLogs(): start:", Action.inspect (normalID event.ID),
          Action.logFatal], Outcome.fatal) ∨
    pumpLogs g tailEnv insp now event backlog inactivityTimeout pumps =
      ([Action.logPrintln "pump.pumpLogs(): start:", Action.inspect (normalID event.ID)],
        Outcome.panicked) ∨
    pumpLogs g tailEnv insp now event backlog inactivityTimeout pumps =
      ([Action.logPrintln "pump.pumpLogs(): start:", Action.inspect (normalID event.ID)],
        Outcome.returned (pumps, none)) ∨
    ((∃ pump, pumps.get (normalID event.ID) = some pump) ∧
      pumpLogs g tailEnv insp now event backlog inactivityTimeout pumps =
        ([Action.logPrintln "pump.pumpLogs(): start:", Action.inspect (normalID event.ID),
            Action.lock, Action.mapLookup (normalID event.ID), Action.unlock],
          Outcome.returned (pumps, none))) ∨
    (pumps.get (normalID event.ID) = none ∧ ∃ c t, t.id = normalID event.ID ∧
      pumpLogs g tailEnv insp now event backlog inactivityTimeout pumps =
        ([Action.logPrintln "pump.pumpLogs(): start:", Action.inspect (normalID event.ID),
            Action.lock, Action.mapLookup (normalID event.ID),
            Action.mapInsert (normalID event.ID), Action.unlock,
            Action.goLoop (normalID event.ID)],
          Outcome.returned (pumps.set (normalID event.ID) (newContainerPump c), some t))) := by
  cases insp with
  | noSuchContainer => left; simp [pumpLogs]
  | otherError => left; simp [pumpLogs]
  | ok c =>
    rcases pumpLogs_filters_cases g.allowTTY c with h | h | ⟨h1, h2, h3⟩
    · right; left
      exact pumpLogs_panicked g tailEnv now event backlog inactivityTimeout pumps c h
    · right; right; left
      exact pumpLogs_rejected g tailEnv now event backlog inactivityTimeout pumps c h
    · cases hreg : pumps.get (normalID event.ID) with
      | some pump =>
        right; right; right; left
        exact ⟨⟨pump, rfl⟩, pumpLogs_registered g tailEnv now event backlog inactivityTimeout
          pumps c pump h1 h2 h3 hreg⟩
      | none =>
        right; right; right; right
        obtain ⟨config, hc⟩ := config_of_ignoreContainerTTY g.allowTTY c false h1
        exact ⟨rfl, c, _, rfl, pumpLogs_accepted g tailEnv now event backlog inactivityTimeout
          pumps c config hc h1 h2 h3 hreg⟩

/-- The ways `pumpLogs` can end, as far as the registry is concerned. -/
theorem pumpLogs_outcome (g : Globals) (tailEnv : GoString) (insp : InspectResult) (now : Time)
    (event : docker.APIEvents) (backlog : Bool) (inactivityTimeout : Duration)
    (pumps : Registry) :
    ((pumpLogs g tailEnv insp now event backlog inactivityTimeout pumps).2 = Outcome.fatal ∨
      (pumpLogs g tailEnv insp now event backlog inactivityTimeout pumps).2 =
        Outcome.panicked) ∨
    (pumpLogs g tailEnv insp now event backlog inactivityTimeout pumps).2 =
      Outcome.returned (pumps, none) ∨
    (pumps.get (normalID event.ID) = none ∧ ∃ c t, t.id = normalID event.ID ∧
      (pumpLogs g tailEnv insp now event backlog inactivityTimeout pumps).2 =
        Outcome.returned (pumps.set (normalID event.ID) (newContainerPump c), some t)) := by
  rcases pumpLogs_shapes g tailEnv insp now event backlog inactivityTimeout pumps with
    h | h | h | ⟨_, h⟩ | ⟨hn, c, t, ht, h⟩
  · left; left; rw [h]
  · left; right; rw [h]
  · right; left; rw [h]
  · right; left; rw [h]
  · right; right; exact ⟨hn, c, t, ht, by rw [h]⟩

/-- The ways one pass of the reconnect loop can end. -/
theorem loopBody_outcome (t : LoopTask) (sinceTime : Time) (a : Attempt) (pumps : Registry) :
    (loopBody t sinceTime a pumps).2 = IterOutcome.fatal ∨
    (∃ s, (loopBody t sinceTime a pumps).2 = IterOutcome.continue_ s) ∨
    (loopBody t sinceTime a pumps).2 = IterOutcome.return_ (pumps.delete t.id) := by
  unfold loopBody
  cases a.inspect with
  | otherError => left; rfl
  | noSuchContainer => right; right; rfl
  | ok c =>
    cases hr : c.State.Running with
    | true => right; left; simp [hr]
    | false => right; right; simp [hr]

theorem System.WF_empty : System.WF System.empty := by
  simp [System.WF, System.empty, Registry.keys]

theorem System.WF_step (g : Globals) (inactivityTimeout : Duration) (s s1 : System) (e : Event)
    (hwf : System.WF s) (hstep : System.step g inactivityTimeout s e = some s1) :
    System.WF s1 := by
  obtain ⟨hk, hl, hiff⟩ := hwf
  cases e with
  | start tailEnv insp now event backlog =>
    simp only [System.step] at hstep
    rcases pumpLogs_outcome g tailEnv insp now event backlog inactivityTimeout s.pumps with
      (h | h) | h | ⟨hnone, c, t, ht, h⟩
    · rw [h] at hstep; simp at hstep
    · rw [h] at hstep; simp at hstep
    · rw [h] at hstep
      simp only [Option.some.injEq] at hstep
      subst hstep
      exact ⟨hk, hl, hiff⟩
    · rw [h] at hstep
      simp only [Option.some.injEq] at hstep
      subst hstep
      have hnotin : normalID event.ID ∉ s.pumps.keys := (Registry.get_eq_none_iff _ _).1 hnone
      have hkeys := Registry.keys_set_of_absent s.pumps (normalID event.ID)
        (newContainerPump c) hnone
      refine ⟨?_, ?_, ?_⟩
      · show (Registry.set s.pumps (normalID event.ID) (newContainerPump c)).keys.Nodup
        rw [hkeys]
        exact List.Nodup.append hk (List.nodup_singleton _) (by simpa using hnotin)
      · show (s.loops ++ [t.id]).Nodup
        rw [ht]
        have hnl : normalID event.ID ∉ s.loops := fun hin => hnotin ((hiff _).1 hin)
        exact List.Nodup.append hl (List.nodup_singleton _) (by simpa using hnl)
      · intro id
        show id ∈ s.loops ++ [t.id] ↔
          id ∈ (Registry.set s.pumps (normalID event.ID) (newContainerPump c)).keys
        rw [hkeys, ht, List.mem_append, List.mem_append, hiff id]
  | attachEnded t sinceTime a =>
    simp only [System.step] at hstep
    by_cases hin : t.id ∈ s.loops
    · rw [if_pos hin] at hstep
      rcases loopBody_outcome t sinceTime a s.pumps with h | ⟨x, h⟩ | h
      · rw [h] at hstep; simp at hstep
      · rw [h] at hstep
        simp only [Option.some.injEq] at hstep
        subst hstep
        exact ⟨hk, hl, hiff⟩
      · rw [h] at hstep
        simp only [Option.some.injEq] at hstep
        subst hstep
        refine ⟨?_, ?_, ?_⟩
        · show (Registry.delete s.pumps t.id).keys.Nodup
          rw [Registry.keys_delete]
          exact List.Nodup.filter _ hk
        · exact List.Nodup.erase _ hl
        · intro id
          show id ∈ s.loops.erase t.id ↔ id ∈ (Registry.delete s.pumps t.id).keys
          rw [Registry.keys_delete, List.Nodup.mem_erase_iff hl, List.mem_filter, hiff id]
          simp [and_comm]
    · rw [if_neg hin] at hstep; simp at hstep

theorem System.WF_run (g : Globals) (inactivityTimeout : Duration) (es : List Event) :
    ∀ s s1 : System, System.WF s → System.run g inactivityTimeout es s = some s1 →
      System.WF s1 := by
  induction es with
  | nil =>
    intro s s1 hwf hrun
    simp only [System.run, Option.some.injEq] at hrun
    subst hrun
    exact hwf
  | cons e es ih =>
    intro s s1 hwf hrun
    simp only [System.run] at hrun
    cases hstep : System.step g inactivityTimeout s e with
    | none => rw [hstep] at hrun; simp at hrun
    | some s2 =>
      rw [hstep] at hrun
      exact ih s2 s1 (System.WF_step g inactivityTimeout s s2 e hwf hstep) hrun

theorem System.AtMostOne_of_WF (s : System) (hwf : System.WF s) : System.AtMostOne s := by
  obtain ⟨hk, hl, hiff⟩ := hwf
  intro id
  refine ⟨?_, ?_, ?_⟩
  · rw [Registry.count_eq_count_keys]
    exact filter_eq_length_le_one _ id hk
  · exact filter_eq_length_le_one _ id hl
  · rw [hiff id, Registry.get_isSome_iff]

/-! ## Claims about the start path, the registry and identities -/

/-- Claim C1, amended: in every state reachable from the empty registry by start or
restart events and passes of the reconnect loops, every identity has at most one
pump record and at most one running reconnect loop; and `pumpLogs` for an event
whose normalized identity is registered and whose inspection succeeded (the
container carrying its `Config` and `HostConfig`) returns with the same registry,
starts no goroutine, inserts nothing and requests no log attachment, so the
state is left as it was; when the inspection fails, `pumpLogs` ends the process
through `assert` before it consults the registry. -/
theorem C1_at_most_one_pump (g : Globals) (inactivityTimeout : Duration) :
    (∀ s, Reachable g inactivityTimeout s → System.AtMostOne s) ∧
    (∀ (tailEnv : GoString) (now : Time) (event : docker.APIEvents) (backlog : Bool)
        (container : docker.Container) (config : docker.Config)
        (hostConfig : docker.HostConfig) (s : System) (pump : containerPump),
      container.Config = some config → container.HostConfig = some hostConfig →
      s.pumps.get (normalID event.ID) = some pump →
        (pumpLogs g tailEnv (InspectResult.ok container) now event backlog inactivityTimeout
            s.pumps).2 = Outcome.returned (s.pumps, none) ∧
        ((pumpLogs g tailEnv (InspectResult.ok container) now event backlog inactivityTimeout
            s.pumps).1 =
            [Action.logPrintln "pump.pumpLogs(): start:", Action.inspect (normalID event.ID)] ∨
          (pumpLogs g tailEnv (InspectResult.ok container) now event backlog inactivityTimeout
            s.pumps).1 =
            [Action.logPrintln "pump.pumpLogs(): start:", Action.inspect (normalID event.ID),
              Action.lock, Action.mapLookup (normalID event.ID), Action.unlock]) ∧
        System.step g inactivityTimeout s
          (Event.start tailEnv (InspectResult.ok container) now event backlog) = some s) ∧
    (∀ (tailEnv : GoString) (insp : InspectResult) (now : Time) (event : docker.APIEvents)
        (backlog : Bool) (pumps : Registry),
      (∀ c, insp ≠ InspectResult.ok c) →
        pumpLogs g tailEnv insp now event backlog inactivityTimeout pumps =
          ([Action.logPrintln "pump.pumpLogs(): start:", Action.inspect (normalID event.ID),
              Action.logFatal], Outcome.fatal)) := by
  refine ⟨?_, ?_, fun tailEnv insp now event backlog pumps h =>
    pumpLogs_inspect_failed g tailEnv insp now event backlog inactivityTimeout pumps h⟩
  · rintro s ⟨es, hes⟩
    exact System.AtMostOne_of_WF s
      (System.WF_run g inactivityTimeout es System.empty s System.WF_empty hes)
  · intro tailEnv now event backlog container config hostConfig s pump hc hh hreg
    have key : pumpLogs g tailEnv (InspectResult.ok container) now event backlog
          inactivityTimeout s.pumps =
          ([Action.logPrintln "pump.pumpLogs(): start:", Action.inspect (normalID event.ID)],
            Outcome.returned (s.pumps, none)) ∨
        pumpLogs g tailEnv (InspectResult.ok container) now event backlog
          inactivityTimeout s.pumps =
          ([Action.logPrintln "pump.pumpLogs(): start:", Action.inspect (normalID event.ID),
              Action.lock, Action.mapLookup (normalID event.ID), Action.unlock],
            Outcome.returned (s.pumps, none)) := by
      rcases pumpLogs_filters_cases g.allowTTY container with h | h | ⟨h1, h2, h3⟩
      · rcases h with h | ⟨_, _, h⟩
        · rw [ignoreContainerTTY_of_config g.allowTTY container config hc] at h
          cases h
        · obtain ⟨b, hb⟩ := logDriverSupported_of_hostConfig container hostConfig hh
          rw [hb] at h
          cases h
      · exact Or.inl (pumpLogs_rejected g tailEnv now event backlog inactivityTimeout s.pumps
          container h)
      · exact Or.inr (pumpLogs_registered g tailEnv now event backlog inactivityTimeout
          s.pumps container pump h1 h2 h3 hreg)
    rcases key with h | h
    · refine ⟨by rw [h], Or.inl (by rw [h]), ?_⟩
      simp only [System.step, h]
    · refine ⟨by rw [h], Or.inr (by rw [h]), ?_⟩
      simp only [System.step, h]

/-- Claim C1, an instance: after one accepted start event the identity has one
record and one loop, and a second start event for it changes nothing. -/
theorem C1_at_most_one_pump_witness :
    System.run sampleGlobals 0 [Event.start [] (InspectResult.ok sampleContainer) 0 sampleEvent false]
        System.empty = some sampleSystem ∧
    System.AtMostOne sampleSystem ∧
    System.step sampleGlobals 0 sampleSystem
      (Event.start [] (InspectResult.ok sampleContainer) 5 sampleEvent false) = some sampleSystem := by
  have hrun : System.run sampleGlobals 0
      [Event.start [] (InspectResult.ok sampleContainer) 0 sampleEvent false]
      System.empty = some sampleSystem := by decide
  refine ⟨hrun, (C1_at_most_one_pump sampleGlobals 0).1 sampleSystem ⟨_, hrun⟩, ?_⟩
  exact ((C1_at_most_one_pump sampleGlobals 0).2.1 [] 5 sampleEvent false sampleContainer
    _ _ sampleSystem (newContainerPump sampleContainer) rfl rfl (by decide)).2.2

/-- Claim C1 as stated fails: the identity of the event is registered (in a
reachable state), the inspection fails, and `pumpLogs` does not return: `assert`
ends the process. -/
theorem C1_counterexample_inspection_fails :
    System.run sampleGlobals 0 [Event.start [] (InspectResult.ok sampleContainer) 0 sampleEvent false]
        System.empty = some sampleSystem ∧
    sampleSystem.pumps.get (normalID sampleEvent.ID) = some (newContainerPump sampleContainer) ∧
    pumpLogs sampleGlobals [] InspectResult.noSuchContainer 5 sampleEvent false 0
        sampleSystem.pumps =
      ([Action.logPrintln "pump.pumpLogs(): start:", Action.inspect "abc123456789".toList,
        Action.logFatal], Outcome.fatal) := by
  decide

/-- Claim C2, amended: for every start or restart event and every inspected
container that carries its `Config`, `pumpLogs` returns with the registry
unchanged, no goroutine started and no attachment requested when the container
has a terminal and `allowTTY` is off, or its name contains "teleglogger", or it
carries a `HostConfig` whose log driver is not json-file, journald or db; when it
carries `Config` and `HostConfig`, none of these holds and the normalized identity
is not registered, it stores exactly one record, under the normalized identity,
and changes no other. -/
theorem C2_pumpLogs_filters (g : Globals) (tailEnv : GoString) (now : Time)
    (event : docker.APIEvents) (backlog : Bool) (inactivityTimeout : Duration)
    (pumps : Registry) (container : docker.Container) (config : docker.Config)
    (hc : container.Config = some config) :
    (((config.Tty = true ∧ g.allowTTY = false) ∨
        "teleglogger".toList <:+: container.Name ∨
        (∃ hostConfig, container.HostConfig = some hostConfig ∧
          ¬ (hostConfig.LogConfig.Type_ = "json-file".toList ∨
              hostConfig.LogConfig.Type_ = "journald".toList ∨
              hostConfig.LogConfig.Type_ = "db".toList))) →
      pumpLogs g tailEnv (InspectResult.ok container) now event backlog inactivityTimeout pumps =
        ([Action.logPrintln "pump.pumpLogs(): start:", Action.inspect (normalID event.ID)],
          Outcome.returned (pumps, none))) ∧
    (∀ hostConfig, container.HostConfig = some hostConfig →
      ¬ (config.Tty = true ∧ g.allowTTY = false) →
      ¬ "teleglogger".toList <:+: container.Name →
      (hostConfig.LogConfig.Type_ = "json-file".toList ∨
        hostConfig.LogConfig.Type_ = "journald".toList ∨
        hostConfig.LogConfig.Type_ = "db".toList) →
      pumps.get (normalID event.ID) = none →
      ∃ t : LoopTask, t.id = normalID event.ID ∧
        pumpLogs g tailEnv (InspectResult.ok container) now event backlog inactivityTimeout pumps =
          ([Action.logPrintln "pump.pumpLogs(): start:", Action.inspect (normalID event.ID),
              Action.lock, Action.mapLookup (normalID event.ID),
              Action.mapInsert (normalID event.ID), Action.unlock,
              Action.goLoop (normalID event.ID)],
            Outcome.returned
              (pumps.set (normalID event.ID) (newContainerPump container), some t)) ∧
        (pumps.set (normalID event.ID) (newContainerPump container)).keys =
          pumps.keys ++ [normalID event.ID] ∧
        (pumps.set (normalID event.ID) (newContainerPump container)).get (normalID event.ID) =
          some (newContainerPump container) ∧
        ∀ other, other ≠ normalID event.ID →
          (pumps.set (normalID event.ID) (newContainerPump container)).get other =
            pumps.get other) := by
  have htty : ∀ b, ignoreContainerTTY g.allowTTY container = some b ↔
      (config.Tty && !g.allowTTY) = b := by
    intro b
    rw [ignoreContainerTTY_of_config g.allowTTY container config hc]
    simp
  refine ⟨?_, ?_⟩
  · intro h
    apply pumpLogs_rejected
    cases h1 : (config.Tty && !g.allowTTY) with
    | true => exact Or.inl ((htty true).2 h1)
    | false =>
      refine Or.inr ⟨(htty false).2 h1, ?_⟩
      rcases h with h | h | ⟨hostConfig, hh, h⟩
      · rw [h.1, h.2] at h1
        cases h1
      · exact Or.inl ((ignoreContainer_iff _).2 h)
      · cases h2 : ignoreContainer container with
        | true => exact Or.inl rfl
        | false => exact Or.inr ⟨rfl, ((logDriverSupported_iff container hostConfig hh).2).2 h⟩
  · intro hostConfig hh h1 h2 h3 hreg
    have e1 : ignoreContainerTTY g.allowTTY container = some false := by
      cases hx : ignoreContainerTTY g.allowTTY container with
      | none => rw [ignoreContainerTTY_of_config g.allowTTY container config hc] at hx; cases hx
      | some b =>
        cases b with
        | false => rfl
        | true => exact absurd ((ignoreContainerTTY_iff _ _ config hc).1 hx) h1
    have e2 : ignoreContainer container = false := by
      cases hx : ignoreContainer container with
      | false => rfl
      | true => exact absurd ((ignoreContainer_iff _).1 hx) h2
    have e3 : logDriverSupported container = some true :=
      ((logDriverSupported_iff container hostConfig hh).1).2 h3
    exact ⟨_, rfl,
      pumpLogs_accepted g tailEnv now event backlog inactivityTimeout pumps container config hc
        e1 e2 e3 hreg,
      Registry.keys_set_of_absent _ _ _ hreg, Registry.get_set_self _ _ _,
      fun other ho => Registry.get_set_other _ _ _ _ ho⟩

/-- Claim C2, instances: a container named after the tool is rejected, and an
accepted one is stored under its twelve-byte identity in the empty registry. -/
theorem C2_pumpLogs_filters_witness :
    pumpLogs sampleGlobals [] (InspectResult.ok { sampleContainer with Name := "my-teleglogger".toList })
        0 sampleEvent false 0 [] =
      ([Action.logPrintln "pump.pumpLogs(): start:", Action.inspect (normalID sampleEvent.ID)],
        Outcome.returned ([], none)) ∧
    (Registry.set [] (normalID sampleEvent.ID) (newContainerPump sampleContainer)).keys =
      [] ++ [normalID sampleEvent.ID] := by
  refine ⟨(C2_pumpLogs_filters sampleGlobals [] 0 sampleEvent false 0 []
      { sampleContainer with Name := "my-teleglogger".toList } { Tty := false } rfl).1
      (Or.inr (Or.inl (by decide))), ?_⟩
  obtain ⟨t, _, _, hk, _⟩ := (C2_pumpLogs_filters sampleGlobals [] 0 sampleEvent false 0 []
      sampleContainer { Tty := false } rfl).2 { LogConfig := { Type_ := "json-file".toList } } rfl
      (by decide) (by decide) (by decide) (by decide)
  exact hk

/-- Claim C2 as stated fails: an inspected container whose name contains
"teleglogger" but which carries no `Config` is not rejected with a normal return,
`pumpLogs` panics at the terminal check; and an inspected container that passes
the first two checks and carries no `HostConfig` makes it panic at the log-driver
check, with nothing stored. -/
theorem C2_counterexample_nil_config :
    "teleglogger".toList <:+: "my-teleglogger".toList ∧
    pumpLogs sampleGlobals []
        (InspectResult.ok { sampleContainer with Name := "my-teleglogger".toList, Config := none })
        0 sampleEvent false 0 [] =
      ([Action.logPrintln "pump.pumpLogs(): start:", Action.inspect "abc123456789".toList],
        Outcome.panicked) ∧
    pumpLogs sampleGlobals [] (InspectResult.ok { sampleContainer with HostConfig := none })
        0 sampleEvent false 0 [] =
      ([Action.logPrintln "pump.pumpLogs(): start:", Action.inspect "abc123456789".toList],
        Outcome.panicked) := by
  refine ⟨⟨"my-".toList, [], by decide⟩, by decide, by decide⟩

theorem normalID_take (id : GoString) : normalID (id.take 12) = normalID id := by
  unfold normalID pumpMaxIDLen
  by_cases h : id.length > 12
  · rw [if_pos h, if_neg (by simp [List.length_take])]
  · rw [if_neg h, List.take_of_length_le (by omega), if_neg h]

theorem registryKeys_pumpLogs (g : Globals) (tailEnv : GoString) (insp : InspectResult)
    (now : Time) (event : docker.APIEvents) (backlog : Bool) (inactivityTimeout : Duration)
    (pumps : Registry) :
    ∀ k ∈ registryKeys (pumpLogs g tailEnv insp now event backlog inactivityTimeout pumps).1,
      k = normalID event.ID := by
  rcases pumpLogs_shapes g tailEnv insp now event backlog inactivityTimeout pumps with
    h | h | h | ⟨_, h⟩ | ⟨_, c, t, _, h⟩ <;> rw [h] <;> simp [registryKeys]

theorem registryKeys_rename (insp : InspectResult) (event : docker.APIEvents) (pumps : Registry) :
    ∀ k ∈ registryKeys (rename insp event pumps).1, k = normalID event.ID := by
  unfold rename
  cases pumps.get (normalID event.ID) <;> cases insp <;> simp [registryKeys]

theorem registryKeys_loopBody (t : LoopTask) (sinceTime : Time) (a : Attempt) (pumps : Registry) :
    ∀ k ∈ registryKeys (loopBody t sinceTime a pumps).1, k = t.id := by
  unfold loopBody
  cases a.inspect with
  | otherError => simp [registryKeys]
  | noSuchContainer => simp [registryKeys]
  | ok c => cases hr : c.State.Running <;> simp [hr, registryKeys]

/-- The goroutine that `pumpLogs` starts works on the normalized identity of the event. -/
theorem pumpLogs_task_id (g : Globals) (tailEnv : GoString) (insp : InspectResult)
    (now : Time) (event : docker.APIEvents) (backlog : Bool) (inactivityTimeout : Duration)
    (pumps pumps1 : Registry) (t : LoopTask)
    (h : (pumpLogs g tailEnv insp now event backlog inactivityTimeout pumps).2 =
      Outcome.returned (pumps1, some t)) : t.id = normalID event.ID := by
  rcases pumpLogs_outcome g tailEnv insp now event backlog inactivityTimeout pumps with
    (h1 | h1) | h1 | ⟨_, c, t1, ht1, h1⟩
  · rw [h1] at h; cases h
  · rw [h1] at h; cases h
  · rw [h1] at h; cases h
  · rw [h1] at h
    cases h
    exact ht1

/-- Claim C9: `normalID id` is the first 12 bytes of `id` when `id` is longer than 12
and `id` otherwise; it is idempotent, a full identifier and its 12-byte short
form have the same normal form, the normal form is at most 12 long, and every
key that `pumpLogs` looks up or inserts, `rename` looks up or updates, and the
reconnect loop started by `pumpLogs` deletes is the normal form of the event's
identifier, hence at most 12 long. -/
theorem C9_normalID :
    (∀ id : GoString, normalID id = if id.length > 12 then id.take 12 else id) ∧
    (∀ id : GoString, normalID (normalID id) = normalID id) ∧
    (∀ id : GoString, normalID (id.take 12) = normalID id) ∧
    (∀ id : GoString, (normalID id).length ≤ 12) ∧
    (∀ (g : Globals) (tailEnv : GoString) (insp : InspectResult) (now : Time)
        (event : docker.APIEvents) (backlog : Bool) (inactivityTimeout : Duration)
        (pumps : Registry),
      ∀ k ∈ registryKeys (pumpLogs g tailEnv insp now event backlog inactivityTimeout pumps).1,
        k = normalID event.ID ∧ k.length ≤ 12) ∧
    (∀ (insp : InspectResult) (event : docker.APIEvents) (pumps : Registry),
      ∀ k ∈ registryKeys (rename insp event pumps).1, k = normalID event.ID ∧ k.length ≤ 12) ∧
    (∀ (g : Globals) (tailEnv : GoString) (insp : InspectResult) (now : Time)
        (event : docker.APIEvents) (backlog : Bool) (inactivityTimeout : Duration)
        (pumps pumps1 : Registry) (t : LoopTask),
      (pumpLogs g tailEnv insp now event backlog inactivityTimeout pumps).2 =
          Outcome.returned (pumps1, some t) →
        ∀ (sinceTime : Time) (a : Attempt) (p : Registry),
          ∀ k ∈ registryKeys (loopBody t sinceTime a p).1,
            k = normalID event.ID ∧ k.length ≤ 12) := by
  refine ⟨fun id => rfl, normalID_idem, normalID_take, normalID_length_le, ?_, ?_, ?_⟩
  · intro g tailEnv insp now event backlog inactivityTimeout pumps k hk
    have h := registryKeys_pumpLogs g tailEnv insp now event backlog inactivityTimeout pumps k hk
    subst h
    exact ⟨rfl, normalID_length_le _⟩
  · intro insp event pumps k hk
    have h := registryKeys_rename insp event pumps k hk
    subst h
    exact ⟨rfl, normalID_length_le _⟩
  · intro g tailEnv insp now event backlog inactivityTimeout pumps pumps1 t ht sinceTime a p k hk
    have h := registryKeys_loopBody t sinceTime a p k hk
    have h2 := pumpLogs_task_id g tailEnv insp now event backlog inactivityTimeout pumps
      pumps1 t ht
    subst h
    rw [h2]
    exact ⟨rfl, normalID_length_le _⟩

/-- Claim C9, an instance: the loop started for the 16-byte identifier of
`sampleEvent` deletes the key `abc123456789`. -/
theorem C9_normalID_witness :
    ∀ k ∈ registryKeys (loopBody
        { id := "abc123456789".toList, tail := "all".toList, sinceTime := 0,
          inactivityTimeout := 0, rawTerminal := false }
        0 { logsErr := LogsError.nil, now := 7, inspect := InspectResult.noSuchContainer }
        sampleSystem.pumps).1,
      k = normalID sampleEvent.ID ∧ k.length ≤ 12 :=
  C9_normalID.2.2.2.2.2.2 sampleGlobals [] (InspectResult.ok sampleContainer) 0 sampleEvent
    false 0 [] [("abc123456789".toList, newContainerPump sampleContainer)] _ (by decide) 0 _ _

/-! ## Rename and die events -/

/-- After a successful inspection, `rename` keeps the keys of the registry: an
unregistered identity leaves the registry as it is, a registered one gets the
inspected name and every other record is as before. -/
theorem rename_inspected (container : docker.Container) (event : docker.APIEvents)
    (pumps : Registry) :
    (pumps.get (normalID event.ID) = none →
      (rename (InspectResult.ok container) event pumps).2 = Outcome.returned pumps) ∧
    (∀ pump, pumps.get (normalID event.ID) = some pump →
      ∃ pumps1, (rename (InspectResult.ok container) event pumps).2 = Outcome.returned pumps1 ∧
        pumps1.keys = pumps.keys ∧
        pumps1.get (normalID event.ID) =
          some { container := { pump.container with Name := container.Name } } ∧
        ∀ other, other ≠ normalID event.ID → pumps1.get other = pumps.get other) := by
  refine ⟨?_, ?_⟩
  · intro h
    simp [rename, h]
  · intro pump h
    refine ⟨pumps.set (normalID event.ID)
      { container := { pump.container with Name := container.Name } }, ?_, ?_, ?_, ?_⟩
    · simp [rename, h]
    · exact Registry.keys_set_of_present _ _ _ _ h
    · exact Registry.get_set_self _ _ _
    · exact fun other ho => Registry.get_set_other _ _ _ _ ho

/-- A failed inspection makes `rename` panic, whether or not the identity is registered. -/
theorem rename_inspection_failed (insp : InspectResult) (event : docker.APIEvents)
    (pumps : Registry) (h : ∀ c, insp ≠ InspectResult.ok c) :
    rename insp event pumps =
      ([Action.lock, Action.inspect event.ID, Action.mapLookup (normalID event.ID),
        Action.unlock], Outcome.panicked) := by
  unfold rename
  cases insp with
  | ok c => exact absurd rfl (h c)
  | noSuchContainer => cases pumps.get (normalID event.ID) <;> rfl
  | otherError => cases pumps.get (normalID event.ID) <;> rfl

/-- Claim C8 at the failing input: a rename event for an identity that is not
registered, with the inspection answering not-found, is not ignored: `rename`
panics on the nil container; the same happens when the identity is registered. -/
theorem C8_rename_panics_on_failed_inspection :
    Registry.get [] (normalID sampleRenameEvent.ID) = none ∧
    rename InspectResult.noSuchContainer sampleRenameEvent [] =
      ([Action.lock, Action.inspect "abc123456789def0".toList,
        Action.mapLookup "abc123456789".toList, Action.unlock], Outcome.panicked) ∧
    (rename InspectResult.noSuchContainer sampleRenameEvent sampleSystem.pumps).2 =
      Outcome.panicked := by
  decide

/-- Claim C5 at the failing input: for a die event whose inspection answers
not-found, `reportDead` logs the error and then panics on the nil container,
without a call to the bot. -/
theorem C5_reportDead_panics_on_failed_inspection :
    reportDead sampleGlobals "Mon 02-Jan 15:04".toList false InspectResult.noSuchContainer
        sampleDieEvent =
      ([Action.logPrintln "reportDead():", Action.inspect "abc123456789".toList,
        Action.logPrintln "reportDead(): error inspecting container:"], Outcome.panicked) ∧
    (reportDead sampleGlobals "Mon 02-Jan 15:04".toList false InspectResult.otherError
        sampleDieEvent).2 = Outcome.panicked := by
  decide

/-- Every failed inspection makes `reportDead` panic. -/
theorem reportDead_inspection_failed (g : Globals) (ts : GoString) (sendErr : Bool)
    (insp : InspectResult) (event : docker.APIEvents) (h : ∀ c, insp ≠ InspectResult.ok c) :
    (reportDead g ts sendErr insp event).2 = Outcome.panicked := by
  unfold reportDead
  cases insp with
  | ok c => exact absurd rfl (h c)
  | noSuchContainer => rfl
  | otherError => rfl

/-! ## The reconnect loop -/

theorem loopBody_running (t : LoopTask) (sinceTime : Time) (a : Attempt) (pumps : Registry)
    (h : a.running = true) :
    loopBody t sinceTime a pumps =
      ([Action.logs (t.logsOptions sinceTime), Action.inspect t.id],
        IterOutcome.continue_
          (if a.logsErr = LogsError.ErrInactivityTimeout then a.now - t.inactivityTimeout
            else a.now)) := by
  unfold Attempt.running at h
  unfold loopBody
  cases hi : a.inspect with
  | otherError => rw [hi] at h; simp at h
  | noSuchContainer => rw [hi] at h; simp at h
  | ok c =>
    rw [hi] at h
    simp only at h
    simp [h, Time.Add, sub_eq_add_neg]

theorem loopBody_dead (t : LoopTask) (sinceTime : Time) (a : Attempt) (pumps : Registry)
    (h : a.inspect = InspectResult.noSuchContainer ∨
      ∃ c, a.inspect = InspectResult.ok c ∧ c.State.Running = false) :
    loopBody t sinceTime a pumps =
      ([Action.logs (t.logsOptions sinceTime), Action.inspect t.id, Action.closeOut,
          Action.closeErr, Action.lock, Action.mapDelete t.id, Action.unlock],
        IterOutcome.return_ (pumps.delete t.id)) := by
  rcases h with h | ⟨c, h, hr⟩
  · simp [loopBody, h]
  · simp [loopBody, h, hr]

theorem loopBody_other_error (t : LoopTask) (sinceTime : Time) (a : Attempt) (pumps : Registry)
    (h : a.inspect = InspectResult.otherError) :
    loopBody t sinceTime a pumps =
      ([Action.logs (t.logsOptions sinceTime), Action.inspect t.id, Action.logFatal],
        IterOutcome.fatal) := by
  unfold loopBody
  rw [h]
  rfl

/-- The three answers an inspection can give to a pass of the loop. -/
theorem Attempt.cases (a : Attempt) :
    a.running = true ∨
    (a.inspect = InspectResult.noSuchContainer ∨
      ∃ c, a.inspect = InspectResult.ok c ∧ c.State.Running = false) ∨
    a.inspect = InspectResult.otherError := by
  unfold Attempt.running
  cases hi : a.inspect with
  | otherError => right; right; rfl
  | noSuchContainer => right; left; left; rfl
  | ok c =>
    cases hr : c.State.Running with
    | true => left; simp [hr]
    | false => right; left; right; exact ⟨c, rfl, hr⟩

theorem reconnectLoop_cons_running (t : LoopTask) (sinceTime : Time) (a : Attempt)
    (rest : List Attempt) (pumps : Registry) (h : a.running = true) :
    reconnectLoop t sinceTime (a :: rest) pumps =
      (Action.logs (t.logsOptions sinceTime) :: Action.inspect t.id ::
          (reconnectLoop t (if a.logsErr = LogsError.ErrInactivityTimeout
            then a.now - t.inactivityTimeout else a.now) rest pumps).1,
        (reconnectLoop t (if a.logsErr = LogsError.ErrInactivityTimeout
            then a.now - t.inactivityTimeout else a.now) rest pumps).2) := by
  rw [reconnectLoop, loopBody_running t sinceTime a pumps h]
  rfl

theorem reconnectLoop_cons_dead (t : LoopTask) (sinceTime : Time) (a : Attempt)
    (rest : List Attempt) (pumps : Registry)
    (h : a.inspect = InspectResult.noSuchContainer ∨
      ∃ c, a.inspect = InspectResult.ok c ∧ c.State.Running = false) :
    reconnectLoop t sinceTime (a :: rest) pumps =
      ([Action.logs (t.logsOptions sinceTime), Action.inspect t.id, Action.closeOut,
          Action.closeErr, Action.lock, Action.mapDelete t.id, Action.unlock],
        LoopOutcome.stopped (pumps.delete t.id)) := by
  rw [reconnectLoop, loopBody_dead t sinceTime a pumps h]

theorem reconnectLoop_cons_other_error (t : LoopTask) (sinceTime : Time) (a : Attempt)
    (rest : List Attempt) (pumps : Registry) (h : a.inspect = InspectResult.otherError) :
    reconnectLoop t sinceTime (a :: rest) pumps =
      ([Action.logs (t.logsOptions sinceTime), Action.inspect t.id, Action.logFatal],
        LoopOutcome.fatal) := by
  rw [reconnectLoop, loopBody_other_error t sinceTime a pumps h]

/-- Every run of the loop begins with a `client.Logs` call for the current `sinceTime`. -/
theorem reconnectLoop_head (t : LoopTask) (as : List Attempt) (pumps : Registry)
    (sinceTime : Time) :
    ∃ tr, (reconnectLoop t sinceTime as pumps).1 = Action.logs (t.logsOptions sinceTime) :: tr := by
  cases as with
  | nil => exact ⟨[], rfl⟩
  | cons b rest =>
    rcases Attempt.cases b with hb | hb | hb
    · rw [reconnectLoop_cons_running t _ b rest pumps hb]; exact ⟨_, rfl⟩
    · rw [reconnectLoop_cons_dead t _ b rest pumps hb]; exact ⟨_, rfl⟩
    · rw [reconnectLoop_cons_other_error t _ b rest pumps hb]; exact ⟨_, rfl⟩

/-- The handles are closed once when the loop stops and not at all before. -/
theorem reconnectLoop_close_count (t : LoopTask) (as : List Attempt) (pumps : Registry) :
    ∀ sinceTime : Time,
      (reconnectLoop t sinceTime as pumps).1.count Action.closeOut =
        (if (reconnectLoop t sinceTime as pumps).2.isStopped then 1 else 0) ∧
      (reconnectLoop t sinceTime as pumps).1.count Action.closeErr =
        (if (reconnectLoop t sinceTime as pumps).2.isStopped then 1 else 0) := by
  induction as with
  | nil => intro sinceTime; simp [reconnectLoop, LoopOutcome.isStopped]
  | cons a rest ih =>
    intro sinceTime
    rcases Attempt.cases a with h | h | h
    · rw [reconnectLoop_cons_running t sinceTime a rest pumps h]
      have := ih (if a.logsErr = LogsError.ErrInactivityTimeout
            then a.now - t.inactivityTimeout else a.now)
      simpa [List.count_cons] using this
    · rw [reconnectLoop_cons_dead t sinceTime a rest pumps h]
      simp [List.count_cons, LoopOutcome.isStopped]
    · rw [reconnectLoop_cons_other_error t sinceTime a rest pumps h]
      simp [List.count_cons, LoopOutcome.isStopped]

/-- Claim C4: after an attach attempt ends the loop inspects the container.  When
the answer is not-found or not running it closes both handles, deletes the entry of
its own identity under the lock (every other entry as before) and stops; when the
answer is running it attaches again without touching the registry; any other
inspection error ends the process.  So the entry is deleted exactly when the
answer is not-found or not running, and over the whole run of the loop each
handle is closed once if the loop has stopped and not at all otherwise. -/
theorem C4_teardown (t : LoopTask) (sinceTime : Time) (a : Attempt) (pumps : Registry) :
    ((a.inspect = InspectResult.noSuchContainer ∨
        ∃ c, a.inspect = InspectResult.ok c ∧ c.State.Running = false) →
      loopBody t sinceTime a pumps =
        ([Action.logs (t.logsOptions sinceTime), Action.inspect t.id, Action.closeOut,
            Action.closeErr, Action.lock, Action.mapDelete t.id, Action.unlock],
          IterOutcome.return_ (pumps.delete t.id)) ∧
      (pumps.delete t.id).get t.id = none ∧
      (∀ other, other ≠ t.id → (pumps.delete t.id).get other = pumps.get other) ∧
      ∀ rest, (reconnectLoop t sinceTime (a :: rest) pumps).2 =
        LoopOutcome.stopped (pumps.delete t.id)) ∧
    ((∃ c, a.inspect = InspectResult.ok c ∧ c.State.Running = true) →
      (loopBody t sinceTime a pumps).1 =
        [Action.logs (t.logsOptions sinceTime), Action.inspect t.id] ∧
      (∃ s, (loopBody t sinceTime a pumps).2 = IterOutcome.continue_ s) ∧
      ∀ rest, ∃ s tr, (reconnectLoop t sinceTime (a :: rest) pumps).1 =
        Action.logs (t.logsOptions sinceTime) :: Action.inspect t.id ::
          Action.logs (t.logsOptions s) :: tr) ∧
    (a.inspect = InspectResult.otherError →
      loopBody t sinceTime a pumps =
        ([Action.logs (t.logsOptions sinceTime), Action.inspect t.id, Action.logFatal],
          IterOutcome.fatal)) ∧
    ((∃ p, (loopBody t sinceTime a pumps).2 = IterOutcome.return_ p) ↔
      (a.inspect = InspectResult.noSuchContainer ∨
        ∃ c, a.inspect = InspectResult.ok c ∧ c.State.Running = false)) ∧
    (∀ (as : List Attempt) (s0 : Time),
      (reconnectLoop t s0 as pumps).1.count Action.closeOut =
        (if (reconnectLoop t s0 as pumps).2.isStopped then 1 else 0) ∧
      (reconnectLoop t s0 as pumps).1.count Action.closeErr =
        (if (reconnectLoop t s0 as pumps).2.isStopped then 1 else 0)) := by
  refine ⟨?_, ?_, ?_, ?_, ?_⟩
  · intro h
    refine ⟨loopBody_dead t sinceTime a pumps h, Registry.get_delete_self _ _,
      fun other ho => Registry.get_delete_other _ _ _ ho, fun rest => ?_⟩
    rw [reconnectLoop_cons_dead t sinceTime a rest pumps h]
  · rintro ⟨c, hc, hr⟩
    have hrun : a.running = true := by
      unfold Attempt.running
      rw [hc]
      exact hr
    rw [loopBody_running t sinceTime a pumps hrun]
    refine ⟨rfl, ⟨_, rfl⟩, fun rest => ?_⟩
    rw [reconnectLoop_cons_running t sinceTime a rest pumps hrun]
    obtain ⟨tr, htr⟩ := reconnectLoop_head t rest pumps
      (if a.logsErr = LogsError.ErrInactivityTimeout then a.now - t.inactivityTimeout else a.now)
    exact ⟨_, tr, by rw [htr]⟩
  · exact loopBody_other_error t sinceTime a pumps
  · constructor
    · rintro ⟨p, hp⟩
      rcases Attempt.cases a with h | h | h
      · rw [loopBody_running t sinceTime a pumps h] at hp; cases hp
      · exact h
      · rw [loopBody_other_error t sinceTime a pumps h] at hp; cases hp
    · intro h
      exact ⟨_, by rw [loopBody_dead t sinceTime a pumps h]⟩
  · intro as s0
    exact reconnectLoop_close_count t as pumps s0

/-- Claim C4, an instance: the loop of `sampleTask` is told that its container is
gone and removes its entry from `sampleSystem`, leaving the registry empty. -/
theorem C4_teardown_witness :
    loopBody sampleTask 0
        { logsErr := LogsError.nil, now := 7, inspect := InspectResult.noSuchContainer }
        sampleSystem.pumps =
      ([Action.logs (sampleTask.logsOptions 0), Action.inspect sampleTask.id, Action.closeOut,
          Action.closeErr, Action.lock, Action.mapDelete sampleTask.id, Action.unlock],
        IterOutcome.return_ []) :=
  ((C4_teardown sampleTask 0
    { logsErr := LogsError.nil, now := 7, inspect := InspectResult.noSuchContainer }
    sampleSystem.pumps).1 (Or.inl rfl)).1

/-- The `Since` parameters of a run of the loop: that of the first attach, then one
for every pass whose inspection reported the container running. -/
theorem sinceParams_reconnectLoop (t : LoopTask) (as : List Attempt) (pumps : Registry) :
    ∀ s0 : Time, sinceParams (reconnectLoop t s0 as pumps).1 =
      Time.Unix s0 :: (as.takeWhile Attempt.running).map (fun a =>
        Time.Unix (if a.logsErr = LogsError.ErrInactivityTimeout
          then a.now - t.inactivityTimeout else a.now)) := by
  induction as with
  | nil => intro s0; simp [reconnectLoop, sinceParams, LoopTask.logsOptions]
  | cons a rest ih =>
    intro s0
    rcases Attempt.cases a with h | h | h
    · rw [reconnectLoop_cons_running t s0 a rest pumps h]
      simp [sinceParams, LoopTask.logsOptions, List.takeWhile_cons, h, ih]
    · have hn : a.running = false := by
        unfold Attempt.running
        rcases h with h | ⟨c, h, hr⟩
        · rw [h]
        · rw [h]; exact hr
      rw [reconnectLoop_cons_dead t s0 a rest pumps h]
      simp [sinceParams, LoopTask.logsOptions, List.takeWhile_cons, hn]
    · have hn : a.running = false := by
        unfold Attempt.running
        rw [h]
      rw [reconnectLoop_cons_other_error t s0 a rest pumps h]
      simp [sinceParams, LoopTask.logsOptions, List.takeWhile_cons, hn]

theorem getElem?_map_takeWhile {α β : Type} (p : α → Bool) (f : α → β) (l : List α) :
    ∀ (k : Nat) (a : α) (x : β), l[k]? = some a → ((l.takeWhile p).map f)[k]? = some x →
      x = f a := by
  induction l with
  | nil => intro k a x ha; simp at ha
  | cons b l ih =>
    intro k a x ha hx
    by_cases hb : p b = true
    · rw [List.takeWhile_cons, if_pos hb, List.map_cons] at hx
      cases k with
      | zero =>
        simp only [List.getElem?_cons_zero, Option.some.injEq] at ha hx
        rw [← hx, ha]
      | succ k =>
        simp only [List.getElem?_cons_succ] at ha hx
        exact ih k a x ha hx
    · rw [List.takeWhile_cons, if_neg hb] at hx
      simp at hx

/-- Claim C3: in a run of the reconnect loop, the `Since` parameter of attach number
`k + 1` is determined by pass `k`: it is the whole Unix seconds (rounded down) of
the instant at which attach `k` ended, minus the inactivity timeout when that
attach ended with `ErrInactivityTimeout`, and of the instant itself when it ended
in any other way.  There is one attach for the start and one more for every pass
that found the container running. -/
theorem C3_since_after_reconnect (t : LoopTask) (s0 : Time) (as : List Attempt)
    (pumps : Registry) (k : Nat) (a : Attempt) (since : Int)
    (ha : as[k]? = some a)
    (hs : (sinceParams (reconnectLoop t s0 as pumps).1)[k + 1]? = some since) :
    (a.logsErr = LogsError.ErrInactivityTimeout →
      since = (a.now - t.inactivityTimeout) / 1000000000 ∧
      since * 1000000000 ≤ a.now - t.inactivityTimeout ∧
      a.now - t.inactivityTimeout < (since + 1) * 1000000000) ∧
    (a.logsErr ≠ LogsError.ErrInactivityTimeout →
      since = a.now / 1000000000 ∧
      since * 1000000000 ≤ a.now ∧ a.now < (since + 1) * 1000000000) ∧
    (sinceParams (reconnectLoop t s0 as pumps).1).length =
      (as.takeWhile Attempt.running).length + 1 := by
  have hfloor : ∀ x : Int, x / 1000000000 * 1000000000 ≤ x ∧
      x < (x / 1000000000 + 1) * 1000000000 := by
    intro x
    constructor
    · exact Int.ediv_mul_le x (by norm_num)
    · have := Int.lt_ediv_add_one_mul_self x (show (0 : Int) < 1000000000 by norm_num)
      exact this
  rw [sinceParams_reconnectLoop, List.getElem?_cons_succ] at hs
  have hx := getElem?_map_takeWhile Attempt.running _ as k a since ha hs
  refine ⟨?_, ?_, ?_⟩
  · intro he
    rw [if_pos he] at hx
    subst hx
    exact ⟨rfl, hfloor _⟩
  · intro he
    rw [if_neg he] at hx
    subst hx
    exact ⟨rfl, hfloor _⟩
  · rw [sinceParams_reconnectLoop]
    simp

/-- Claim C3, an instance: the first attach ends by inactivity timeout 20.5 s
after the epoch, the timeout is 5 s, and the second attach asks for the logs
since second 15; it ends normally at 31.5 s and the third asks since second 31. -/
theorem C3_since_after_reconnect_witness :
    sinceParams (reconnectLoop sampleTask 0
      [{ logsErr := LogsError.ErrInactivityTimeout, now := 20500000000,
         inspect := InspectResult.ok sampleContainer },
       { logsErr := LogsError.nil, now := 31500000000,
         inspect := InspectResult.ok sampleContainer }] []).1 = [0, 15, 31] ∧
    (15 : Int) = (20500000000 - sampleTask.inactivityTimeout) / 1000000000 :=
  ⟨by decide,
   ((C3_since_after_reconnect sampleTask 0
      [{ logsErr := LogsError.ErrInactivityTimeout, now := 20500000000,
         inspect := InspectResult.ok sampleContainer },
       { logsErr := LogsError.nil, now := 31500000000,
         inspect := InspectResult.ok sampleContainer }] [] 0
      { logsErr := LogsError.ErrInactivityTimeout, now := 20500000000,
        inspect := InspectResult.ok sampleContainer } 15 (by decide) (by decide)).1 rfl).1⟩

/-! ## Lock discipline -/

theorem lockDiscipline_reconnectLoop (t : LoopTask) (as : List Attempt) (pumps : Registry) :
    ∀ s0 : Time, registryUnderLock false (reconnectLoop t s0 as pumps).1 = true ∧
      noBlockingUnderLock false (reconnectLoop t s0 as pumps).1 = true := by
  induction as with
  | nil => intro s0; simp [reconnectLoop, registryUnderLock, noBlockingUnderLock]
  | cons a rest ih =>
    intro s0
    rcases Attempt.cases a with h | h | h
    · rw [reconnectLoop_cons_running t s0 a rest pumps h]
      simpa [registryUnderLock, noBlockingUnderLock] using ih _
    · rw [reconnectLoop_cons_dead t s0 a rest pumps h]
      simp [registryUnderLock, noBlockingUnderLock]
    · rw [reconnectLoop_cons_other_error t s0 a rest pumps h]
      simp [registryUnderLock, noBlockingUnderLock]

theorem lockDiscipline_pumpLogs (g : Globals) (tailEnv : GoString) (insp : InspectResult)
    (now : Time) (event : docker.APIEvents) (backlog : Bool) (inactivityTimeout : Duration)
    (pumps : Registry) :
    registryUnderLock false
        (pumpLogs g tailEnv insp now event backlog inactivityTimeout pumps).1 = true ∧
      noBlockingUnderLock false
        (pumpLogs g tailEnv insp now event backlog inactivityTimeout pumps).1 = true := by
  rcases pumpLogs_shapes g tailEnv insp now event backlog inactivityTimeout pumps with
    h | h | h | ⟨_, h⟩ | ⟨_, c, t, _, h⟩ <;> rw [h] <;>
    simp [registryUnderLock, noBlockingUnderLock]

theorem lockDiscipline_rename (insp : InspectResult) (event : docker.APIEvents)
    (pumps : Registry) :
    registryUnderLock false (rename insp event pumps).1 = true ∧
      noBlockingUnderLock false (rename insp event pumps).1 = false := by
  unfold rename
  cases pumps.get (normalID event.ID) <;> cases insp <;>
    simp [registryUnderLock, noBlockingUnderLock]

/-- Claim C10, amended: in `pumpLogs`, in the reconnect loop and in `rename` the map
is read and written only with the lock held; `pumpLogs` and the reconnect loop
make no inspection and no log attachment while they hold it; `rename` always
makes its inspection while holding it. -/
theorem C10_lock_discipline :
    (∀ (g : Globals) (tailEnv : GoString) (insp : InspectResult) (now : Time)
        (event : docker.APIEvents) (backlog : Bool) (inactivityTimeout : Duration)
        (pumps : Registry),
      registryUnderLock false
          (pumpLogs g tailEnv insp now event backlog inactivityTimeout pumps).1 = true ∧
        noBlockingUnderLock false
          (pumpLogs g tailEnv insp now event backlog inactivityTimeout pumps).1 = true) ∧
    (∀ (t : LoopTask) (s0 : Time) (as : List Attempt) (pumps : Registry),
      registryUnderLock false (reconnectLoop t s0 as pumps).1 = true ∧
        noBlockingUnderLock false (reconnectLoop t s0 as pumps).1 = true) ∧
    (∀ (insp : InspectResult) (event : docker.APIEvents) (pumps : Registry),
      registryUnderLock false (rename insp event pumps).1 = true ∧
        noBlockingUnderLock false (rename insp event pumps).1 = false) :=
  ⟨lockDiscipline_pumpLogs, fun t s0 as pumps => lockDiscipline_reconnectLoop t as pumps s0,
    lockDiscipline_rename⟩

/-- Claim C10 as stated fails: `rename` for a registered container takes the lock,
then inspects the container, and only then looks the pump up and unlocks. -/
theorem C10_counterexample_rename_inspects_under_lock :
    (rename (InspectResult.ok { sampleContainer with Name := "web2".toList }) sampleRenameEvent
        sampleSystem.pumps).1 =
      [Action.lock, Action.inspect "abc123456789def0".toList,
        Action.mapLookup "abc123456789".toList,
        Action.setName "abc123456789".toList "web2".toList, Action.unlock] ∧
    noBlockingUnderLock false
      (rename (InspectResult.ok { sampleContainer with Name := "web2".toList }) sampleRenameEvent
        sampleSystem.pumps).1 = false := by
  decide

/-! ## Line production -/

theorem ReadString_line (l rest : GoString) (h : '\n' ∉ l) :
    ReadString '\n' (l ++ '\n' :: rest) = (l ++ ['\n'], rest, false) := by
  induction l with
  | nil => simp [ReadString]
  | cons c l ih =>
    have hc : c ≠ '\n' := fun hc => h (by simp [hc])
    have hl : '\n' ∉ l := fun hl => h (by simp [hl])
    simp [ReadString, hc, ih hl]

theorem stringsTrimSuffix_newline (l : GoString) :
    stringsTrimSuffix (l ++ ['\n']) "\n".toList = l := by
  have hs : List.isSuffixOf "\n".toList (l ++ ['\n']) = true := by
    rw [List.isSuffixOf_iff_suffix]
    exact ⟨l, rfl⟩
  unfold stringsTrimSuffix
  rw [if_pos hs]
  have : ("\n".toList).length = 1 := rfl
  simp [this]

/-- The line-production loop on a stream of complete lines. -/
theorem pump_writeLines (container : docker.Container) (clock : Nat → Time) (source : GoString)
    (ls : List GoString) (h : ∀ l ∈ ls, '\n' ∉ l) :
    ∀ (fuel k : Nat), ls.length < fuel →
      (newContainerPump.pump container clock source fuel k (writeLines ls)).1.map Message.Data = ls ∧
      (newContainerPump.pump container clock source fuel k (writeLines ls)).1.length = ls.length ∧
      (∀ m ∈ (newContainerPump.pump container clock source fuel k (writeLines ls)).1,
        m.Source = source ∧ m.Container = container) ∧
      (newContainerPump.pump container clock source fuel k (writeLines ls)).2 = true := by
  induction ls with
  | nil =>
    intro fuel k hf
    cases fuel with
    | zero => simp at hf
    | succ fuel => simp [writeLines, newContainerPump.pump, ReadString]
  | cons l ls ih =>
    intro fuel k hf
    cases fuel with
    | zero => simp at hf
    | succ fuel =>
      have hl : '\n' ∉ l := h l (by simp)
      have hls : ∀ x ∈ ls, '\n' ∉ x := fun x hx => h x (by simp [hx])
      have hf2 : ls.length < fuel := by simp at hf; omega
      obtain ⟨i1, i2, i3, i4⟩ := ih hls fuel (k + 1) hf2
      simp only [writeLines, newContainerPump.pump, ReadString_line l (writeLines ls) hl,
        stringsTrimSuffix_newline]
      refine ⟨by simp [i1], by simp [i2], ?_, i4⟩
      intro m hm
      rcases List.mem_cons.1 hm with hm | hm
      · subst hm; exact ⟨rfl, rfl⟩
      · exact i3 m hm

/-- Claim C7: for a stream into which the lines `ls` (none containing a newline) were
written in order, each followed by a newline, the line-production loop, given
more passes than there are lines, hands to `send` exactly one message per line,
in the order written, with the text of the line without its newline, tagged with
the source and the container, and then returns on the end of the input. -/
theorem C7_line_order (container : docker.Container) (clock : Nat → Time) (source : GoString)
    (ls : List GoString) (fuel : Nat) (h : ∀ l ∈ ls, '\n' ∉ l) (hf : ls.length < fuel) :
    (newContainerPump.pump container clock source fuel 0 (writeLines ls)).1.map Message.Data = ls ∧
    (newContainerPump.pump container clock source fuel 0 (writeLines ls)).1.length = ls.length ∧
    (∀ m ∈ (newContainerPump.pump container clock source fuel 0 (writeLines ls)).1,
      m.Source = source ∧ m.Container = container) ∧
    (newContainerPump.pump container clock source fuel 0 (writeLines ls)).2 = true :=
  pump_writeLines container clock source ls h fuel 0 hf

/-- Claim C7, an instance: the lines A, B, C. -/
theorem C7_line_order_witness :
    writeLines ["A".toList, "B".toList, "C".toList] = "A\nB\nC\n".toList ∧
    (newContainerPump.pump sampleContainer (fun _ => 0) "stdout".toList 4 0
      "A\nB\nC\n".toList).1.map Message.Data = ["A".toList, "B".toList, "C".toList] :=
  ⟨by decide,
   (C7_line_order sampleContainer (fun _ => 0) "stdout".toList
      ["A".toList, "B".toList, "C".toList] 4 (by decide) (by decide)).1⟩

/-! ## Filter and dispatch -/

/-- Claim C6, amended: for a line of a container whose identifier has at least four
bytes, `send` returns and calls `Bot.Send` exactly once when the pattern matches
the text of the line, `sendTg` is set and the bot exists, and not at all
otherwise; the text sent is the formatted time, a comma and a blank, and then
the container name, the first four bytes of the identifier, the source and the
text of the line, separated by blanks.  The default pattern matches
"Connection ERROR: timeout" and does not match "all good". -/
theorem C6_send (g : Globals) (ts : GoString) (sendErr : Bool) (cp : containerPump)
    (msg : Message) (hc : msg.Container = cp.container) (hid : 4 ≤ cp.container.ID.length) :
    (containerPump.send g ts sendErr cp msg).2 = Outcome.returned () ∧
    sinkCalls (containerPump.send g ts sendErr cp msg).1 =
      (if g.matchre msg.Data = true ∧ g.sendTg = true ∧ g.botPresent = true then
        [ts ++ ", ".toList ++ (cp.container.Name ++ " ".toList ++ cp.container.ID.take 4 ++
          " ".toList ++ msg.Source ++ " ".toList ++ msg.Data)]
      else []) ∧
    defaultMatchre.Match "Connection ERROR: timeout".toList = true ∧
    defaultMatchre.Match "all good".toList = false := by
  have h4 : ¬ cp.container.ID.length < 4 := by omega
  have h4m : ¬ msg.Container.ID.length < 4 := by rw [hc]; exact h4
  refine ⟨?_, ?_, by decide, by decide⟩
  · unfold containerPump.send tgMessage
    cases hm : g.matchre msg.Data <;> cases hs : g.sendTg <;> cases hb : g.botPresent <;>
      cases sendErr <;> simp [h4, h4m]
  · unfold containerPump.send tgMessage
    cases hm : g.matchre msg.Data <;> cases hs : g.sendTg <;> cases hb : g.botPresent <;>
      cases sendErr <;> simp [h4, h4m, sinkCalls, hc]

/-- Claim C6, an instance: with notifications enabled and the default pattern the
line "Connection ERROR: timeout" of `sampleContainer` is sent once, and the line
"all good" is not sent. -/
theorem C6_send_witness :
    sinkCalls (containerPump.send sampleGlobals "Mon 02-Jan 15:04".toList false
        (newContainerPump sampleContainer) sampleMessage).1 =
      ["Mon 02-Jan 15:04, web abc1 stderr Connection ERROR: timeout".toList] ∧
    sinkCalls (containerPump.send sampleGlobals "Mon 02-Jan 15:04".toList false
        (newContainerPump sampleContainer)
        { sampleMessage with Data := "all good".toList }).1 = [] := by
  have h1 := (C6_send sampleGlobals "Mon 02-Jan 15:04".toList false
    (newContainerPump sampleContainer) sampleMessage rfl (by decide)).2.1
  have h2 := (C6_send sampleGlobals "Mon 02-Jan 15:04".toList false
    (newContainerPump sampleContainer) { sampleMessage with Data := "all good".toList } rfl
    (by decide)).2.1
  refine ⟨?_, ?_⟩
  · rw [h1]; decide
  · rw [h2]; decide

/-- Claim C6 as stated fails: the pattern matches the line, and yet with `sendTg`
unset `send` makes no call to the bot; with `sendTg` set the text sent is not the
bare "name id source text" but carries the formatted time in front. -/
theorem C6_counterexample_disabled_or_prefixed :
    sampleGlobals.matchre sampleMessage.Data = true ∧
    4 ≤ sampleContainer.ID.length ∧
    sinkCalls (containerPump.send { sampleGlobals with sendTg := false }
        "Mon 02-Jan 15:04".toList false (newContainerPump sampleContainer) sampleMessage).1 = [] ∧
    sinkCalls (containerPump.send sampleGlobals "Mon 02-Jan 15:04".toList false
        (newContainerPump sampleContainer) sampleMessage).1 =
      ["Mon 02-Jan 15:04, web abc1 stderr Connection ERROR: timeout".toList] ∧
    sinkCalls (containerPump.send sampleGlobals "Mon 02-Jan 15:04".toList false
        (newContainerPump sampleContainer) sampleMessage).1 ≠
      ["web abc1 stderr Connection ERROR: timeout".toList] := by
  decide

end Teleglogger
